import Mathlib

/-! E-Mart order controller.

A shallow embedding of `server/src/controllers/orderController.js`
(`createOrder`, `getUserOrders`, `getShopkeeperOrders`, `getWeeklyStats`,
`updateOrderStatus`, `getOrderDetails`) over an explicit
database state, of the order router, and of the state updates of the client
(`App.jsx`, `AppContext.jsx`, the shopkeeper pages), followed by the properties
of the order lifecycle.

Conventions of the embedding

* The database is a record of collections, each a list of documents in
  insertion order.  `findOne` / `findById` return the first matching document.
* Document ids are strings.  MongoDB keeps `_id` unique inside a collection;
  that invariant is `Db.UniqueIds`.
* JavaScript numbers (prices, quantities, totals, coordinates) are integers.
* Every handler takes the state before the call and returns the state after
  it together with the HTTP response.  `console.error` / `console.log` lines
  are appended to `Db.console`.
* What the surroundings decide (the clock, the time zone of the server, the id
  generated for a new document, whether the notification store accepts a
  write) is read from `Env`.
-/

namespace EMart

/-! ## Data model -/

/-- A value of a JSON request body field, as JavaScript sees it. -/
inductive JsValue where
  | undefined
  | null
  | bool (b : Bool)
  | num (n : Int)
  | str (s : String)
deriving DecidableEq, Repr

/-- GeoJSON point: `coordinates: [lng, lat]`. -/
structure GeoPoint where
  lng : Int
  lat : Int
deriving DecidableEq, Repr

/-- Product document; the fields `createOrder` and `populate` read. -/
structure Product where
  _id : String
  name : String
  price : Int
  images : List String
deriving DecidableEq, Repr

/-- User document; the fields `populate` selects. -/
structure User where
  _id : String
  username : String
  email : String
  location : Option GeoPoint
deriving DecidableEq, Repr

/-- One snapshotted line item of an order (`orderItems.push(...)`). -/
structure OrderItem where
  product : String
  name : String
  price : Int
  quantity : Int
  image : Option String
deriving DecidableEq, Repr

/-- Order document, with the fields written by `new Order(...)` and the two
timestamps kept by the schema. -/
structure Order where
  _id : String
  user : String
  shopkeeper : String
  items : List OrderItem
  total : Int
  address : String
  paymentMethod : String
  paid : Bool
  paymentProvider : Option String
  paymentId : Option String
  paidAt : Option Nat
  paymentMetadata : List (String × String)
  deliveryLocation : Option GeoPoint
  status : String
  createdAt : Nat
  updatedAt : Nat
deriving DecidableEq, Repr

/-- The `meta` object handed to `createNotification`: `(orderId, status)`. -/
structure NotificationMeta where
  orderId : String
  status : String
deriving DecidableEq, Repr

/-- The argument object of `createNotification` (the socket server `io` is
left out: it carries no data of the order). -/
structure NotificationArgs where
  userId : String
  title : String
  message : String
  meta : NotificationMeta
  type : String
deriving DecidableEq, Repr

/-- A persisted notification row. -/
structure Notification where
  user : String
  title : String
  message : String
  meta : NotificationMeta
  type : String
  read : Bool
deriving DecidableEq, Repr

/-- The database together with the process console. -/
structure Db where
  products : List Product
  users : List User
  orders : List Order
  notifications : List Notification
  console : List String
deriving DecidableEq, Repr

/-- A time zone: the offset `base` of local time from UTC, in milliseconds,
and the changes of that offset in the order in which they happen, each with the
instant of UTC at which it happens and the offset that holds from then on. A
zone without daylight saving has no change. -/
structure Zone where
  base : Int
  transitions : List (Int × Int)
deriving DecidableEq, Repr

/-- What the surroundings supply to one request. -/
structure Env where
  /-- The clock, read when a document is stamped. -/
  now : Nat
  /-- The id generated for a document created by this request. -/
  freshId : String
  /-- Whether the notification store accepts a write during this request. -/
  notificationStoreOk : Bool
  /-- The time zone of the server; UTC when nothing is said. -/
  zone : Zone := ⟨0, []⟩
deriving DecidableEq, Repr

/-- Ids are unique inside the order collection. -/
def Db.UniqueIds (db : Db) : Prop :=
  (db.orders.map Order._id).Nodup

/-! ## Requests and responses -/

/-- One element of `req.body.items`. -/
structure ItemRequest where
  productId : String
  quantity : Int
deriving DecidableEq, Repr

/-- The `deliveryLocation` field of the body of `POST /orders`. -/
structure LatLng where
  lng : Int
  lat : Int
deriving DecidableEq, Repr

/-- Body of `POST /orders`; an absent field is `none`. -/
structure CreateBody where
  items : Option (List ItemRequest)
  totalAmount : Int
  address : String
  paymentMethod : Option String
  shopkeeperId : Option String
  deliveryLocation : Option LatLng
deriving DecidableEq, Repr

/-- Request of `POST /orders`: `user` is `req.user?._id`. -/
structure CreateRequest where
  user : Option String
  body : CreateBody
deriving DecidableEq, Repr

/-- Request of `PUT /orders/:id`: `user` is the `_id` of `req.user` when the
request carries one, `id` is `req.params.id`, `status` is `req.body.status`. -/
structure StatusRequest where
  user : Option String
  id : String
  status : JsValue
deriving DecidableEq, Repr

/-- Request of `GET /orders/:id`. -/
structure DetailsRequest where
  id : String
deriving DecidableEq, Repr

/-- The fields of a user that `populate(_, "username email location")` keeps. -/
structure UserView where
  _id : String
  username : String
  email : String
  location : Option GeoPoint
deriving DecidableEq, Repr

/-- The fields of a product that `populate(_, "name images price")` keeps. -/
structure ProductView where
  _id : String
  name : String
  images : List String
  price : Int
deriving DecidableEq, Repr

/-- An order after `populate`: the document, and for each populated path the
referenced document (`none` when the reference is dangling). -/
structure PopulatedOrder where
  doc : Order
  user : Option UserView
  shopkeeper : Option UserView
  products : List (Option ProductView)
deriving DecidableEq, Repr

/-- Request of a route that reads nothing but `req.user._id`
(`getUserOrders`, `getShopkeeperOrders`, `getWeeklyStats`). -/
structure AuthRequest where
  user : Option String
deriving DecidableEq, Repr

/-- The fields of a user that `populate(_, "username location")` keeps. -/
structure ShopView where
  _id : String
  username : String
  location : Option GeoPoint
deriving DecidableEq, Repr

/-- An order as `getUserOrders` returns it: `shopkeeper` and `items.product`
are populated. -/
structure UserOrderView where
  doc : Order
  shopkeeper : Option UserView
  products : List (Option ProductView)
deriving DecidableEq, Repr

/-- An order as `getShopkeeperOrders` returns it: `user` and `shopkeeper` are
populated. -/
structure ShopkeeperOrderView where
  doc : Order
  user : Option UserView
  shopkeeper : Option ShopView
deriving DecidableEq, Repr

/-- One element of the array `last7Days` of `getWeeklyStats`.  The text
`YYYY-MM-DD` of `date` names a calendar day of UTC; it is kept as the number of
that day counted from 1970-01-01, of which the text is a one-to-one rendering. -/
structure DayStats where
  date : Int
  orders : Nat
  revenue : Int
deriving DecidableEq, Repr

/-- JSON body of a response. -/
inductive Body where
  /-- The body `(message)`. -/
  | message (message : String)
  /-- The body `(success: true, message, order)`. -/
  | order (message : String) (order : Order)
  /-- The body `(success: true, order)` of `getOrderDetails`. -/
  | details (order : PopulatedOrder)
  /-- The body `(success: true, orders)` of `getUserOrders`. -/
  | userOrders (orders : List UserOrderView)
  /-- The body `(success: true, orders)` of `getShopkeeperOrders`. -/
  | shopkeeperOrders (orders : List ShopkeeperOrderView)
  /-- The body of `getWeeklyStats`: the array `last7Days`. -/
  | weekly (days : List DayStats)
  /-- The body `(message, error)` of a failed listing. -/
  | serverError (message : String) (error : String)
deriving DecidableEq, Repr

/-- HTTP response: status code and JSON body. -/
structure Response where
  status : Nat
  body : Body
deriving DecidableEq, Repr

/-! ## Queries of the data layer -/

/-- Query `Product.findById(id)`. -/
def Product.findById (products : List Product) (id : String) : Option Product :=
  products.find? (fun p => p._id == id)

/-- Query `User.findById(id)`, used by `populate`. -/
def User.findById (users : List User) (id : String) : Option User :=
  users.find? (fun u => u._id == id)

/-- Query `Order.findById(id)`. -/
def Order.findById (orders : List Order) (id : String) : Option Order :=
  orders.find? (fun o => o._id == id)

/-- Query `Order.findOne((_id: id, shopkeeper: shopkeeperId))`: the id and the
owner are matched jointly. -/
def Order.findOne (orders : List Order) (id shopkeeperId : String) : Option Order :=
  orders.find? (fun o => o._id == id && o.shopkeeper == shopkeeperId)

/-- Assignment `order.status = status` on a loaded document.  A path set to
the value it already has is not marked modified, and the schema stamps
`updatedAt` on save only for a modified document. -/
def Order.setStatus (now : Nat) (order : Order) (status : String) : Order :=
  if order.status = status then order
  else { order with status := status, updatedAt := now }

/-- Call `order.save()` on a loaded document: the stored document with that `_id`
is replaced. -/
def Order.save (orders : List Order) (doc : Order) : List Order :=
  orders.map (fun o => if o._id = doc._id then doc else o)

/-- Population of `user` or `shopkeeper` with `"username email location"`. -/
def populateUser (users : List User) (id : String) : Option UserView :=
  (User.findById users id).map
    (fun u => { _id := u._id, username := u.username, email := u.email, location := u.location })

/-- Population of `items.product` with `"name images price"` for one line item. -/
def populateProduct (products : List Product) (it : OrderItem) : Option ProductView :=
  (Product.findById products it.product).map
    (fun p => { _id := p._id, name := p.name, images := p.images, price := p.price })

/-! ## Notifications -/

/-- Expression `String(x).slice(-6)`: the last six characters, the whole string when it
has fewer. -/
def sliceLast6 (s : String) : String :=
  String.mk (s.data.drop (s.length - 6))

/-- Modelled from the spec: `createNotification` of `utils/notifications.js`
is not among the sources.  The dispatcher persists exactly one new
notification row for the recipient, unread, carrying title, message, metadata
and kind; a failed push is swallowed inside it, while a persistence failure of
the notification store is thrown to the caller and leaves no row. -/
def createNotification (storeOk : Bool) (a : NotificationArgs)
    (rows : List Notification) : Except String (List Notification) :=
  if storeOk then
    .ok (rows ++ [{ user := a.userId, title := a.title, message := a.message,
                    meta := a.meta, type := a.type, read := false }])
  else
    .error "Internal"

/-! ## `updateOrderStatus` -/

/-- The array `allowed` of `updateOrderStatus`. -/
def allowed : List String :=
  ["Pending", "Confirmed", "Out for Delivery", "Delivered", "Cancelled"]

/-- Test `allowed.includes(status)`: only a string can equal an element. -/
def includes (xs : List String) (v : JsValue) : Bool :=
  match v with
  | .str s => xs.contains s
  | _ => false

/-- The argument object built for `createNotification` in `updateOrderStatus`. -/
def statusNotification (order : Order) (status : String) : NotificationArgs :=
  { userId := order.user
    title := "Order " ++ status
    message := "Your order #" ++ sliceLast6 order._id ++ " was updated to: " ++ status
    meta := { orderId := order._id, status := status }
    type := "ORDER_UPDATE" }

/-- The inner `try ... catch` of `updateOrderStatus`: the notification is
created, and an exception is written to the console and dropped. -/
def notifyStatus (env : Env) (db : Db) (order : Order) (status : String) : Db :=
  match createNotification env.notificationStoreOk (statusNotification order status)
      db.notifications with
  | .ok rows => { db with notifications := rows }
  | .error err =>
    { db with console := db.console ++ ["Order status notification error: " ++ err] }

/-- Handler `updateOrderStatus(req, res)`. -/
def updateOrderStatus (env : Env) (db : Db) (req : StatusRequest) : Db × Response :=
  match req.user with
  | none =>
    -- *req.user._id* throws; the outer handler answers
    ({ db with console := db.console ++ ["❌ updateOrderStatus error:"] },
      ⟨500, .message "Failed to update order"⟩)
  | some shopkeeperId =>
    match req.status with
    | .str status =>
      if includes allowed (.str status) then
        match Order.findOne db.orders req.id shopkeeperId with
        | none => (db, ⟨404, .message "Order not found or unauthorized"⟩)
        | some found =>
          let order := Order.setStatus env.now found status
          let db1 := { db with orders := Order.save db.orders order }
          let db2 := notifyStatus env db1 order status
          let db3 := { db2 with console := db2.console ++ ["📢 SMS disabled — No SMS sent."] }
          (db3, ⟨200, .order "Order updated" order⟩)
      else (db, ⟨400, .message "Invalid status"⟩)
    | _ => (db, ⟨400, .message "Invalid status"⟩)

/-! ## `getOrderDetails` -/

/-- Handler `getOrderDetails(req, res)`. -/
def getOrderDetails (db : Db) (req : DetailsRequest) : Db × Response :=
  match Order.findById db.orders req.id with
  | none => (db, ⟨404, .message "Order not found"⟩)
  | some order =>
    (db, ⟨200, .details
      { doc := order
        user := populateUser db.users order.user
        shopkeeper := populateUser db.users order.shopkeeper
        products := order.items.map (populateProduct db.products) }⟩)

/-! ## `createOrder` -/

/-- JavaScript truthiness of an optional string field: absent and the empty
string are falsy. -/
def truthy (v : Option String) : Bool :=
  match v with
  | none => false
  | some s => s != ""

/-- The loop `for (const it of items)` of `createOrder` with `orderItems` as
the accumulator: it stops with the missing product id at the first item
whose product is not found. -/
def orderItemsLoop (products : List Product) :
    List ItemRequest → List OrderItem → Except String (List OrderItem)
  | [], orderItems => .ok orderItems
  | it :: rest, orderItems =>
    match Product.findById products it.productId with
    | none => .error it.productId
    | some product =>
      orderItemsLoop products rest
        (orderItems ++ [{ product := product._id, name := product.name, price := product.price,
                          quantity := it.quantity, image := product.images.head? }])

/-- Test `!items || items.length === 0` of `createOrder`. -/
def noItems (items : Option (List ItemRequest)) : Bool :=
  match items with
  | none => true
  | some l => l.isEmpty

/-- The document built by `new Order(...)` in `createOrder`. -/
def newOrder (env : Env) (userId : String) (body : CreateBody)
    (orderItems : List OrderItem) : Order :=
  { _id := env.freshId
    user := userId
    shopkeeper := body.shopkeeperId.getD ""
    items := orderItems
    total := body.totalAmount
    address := body.address
    paymentMethod := if truthy body.paymentMethod then body.paymentMethod.getD "UPI" else "UPI"
    paid := false
    paymentProvider := none
    paymentId := none
    paidAt := none
    paymentMetadata := []
    deliveryLocation := body.deliveryLocation.map (fun d => { lng := d.lng, lat := d.lat })
    status := "Pending"
    createdAt := env.now
    updatedAt := env.now }

/-- Handler `createOrder(req, res)`. -/
def createOrder (env : Env) (db : Db) (req : CreateRequest) : Db × Response :=
  match req.user with
  | none => (db, ⟨401, .message "Unauthorized"⟩)
  | some userId =>
    if noItems req.body.items then
      (db, ⟨400, .message "Order items are required"⟩)
    else if !truthy req.body.shopkeeperId then
      (db, ⟨400, .message "Shopkeeper ID is required"⟩)
    else
      match orderItemsLoop db.products (req.body.items.getD []) [] with
      | .error productId => (db, ⟨404, .message ("Product not found: " ++ productId)⟩)
      | .ok orderItems =>
        let order := newOrder env userId req.body orderItems
        ({ db with orders := db.orders ++ [order] },
          ⟨201, .order "Order created successfully" order⟩)

/-! ## `getUserOrders` and `getShopkeeperOrders` -/

/-- The message of the `TypeError` thrown by `req.user._id` when the request
carries no user. -/
def noUserError : String :=
  "Cannot read properties of undefined (reading \x27_id\x27)"

/-- Sort `.sort((createdAt: -1))`: newest first. -/
def sortNewestFirst (orders : List Order) : List Order :=
  orders.insertionSort (fun a b => b.createdAt ≤ a.createdAt)

/-- Population of `shopkeeper` with `"username location"`. -/
def populateShop (users : List User) (id : String) : Option ShopView :=
  (User.findById users id).map
    (fun u => { _id := u._id, username := u.username, location := u.location })

/-- Handler `getUserOrders(req, res)`. -/
def getUserOrders (db : Db) (req : AuthRequest) : Db × Response :=
  match req.user with
  | none =>
    ({ db with console := db.console ++ ["❌ getUserOrders error:"] },
      ⟨500, .serverError "Server error" noUserError⟩)
  | some userId =>
    let orders := sortNewestFirst (db.orders.filter (fun o => o.user == userId))
    (db, ⟨200, .userOrders (orders.map (fun o =>
      { doc := o
        shopkeeper := populateUser db.users o.shopkeeper
        products := o.items.map (populateProduct db.products) }))⟩)

/-- Handler `getShopkeeperOrders(req, res)`. -/
def getShopkeeperOrders (db : Db) (req : AuthRequest) : Db × Response :=
  match req.user with
  | none =>
    ({ db with console := db.console ++ ["❌ getShopkeeperOrders error:"] },
      ⟨500, .serverError "Server error" noUserError⟩)
  | some shopkeeperId =>
    let orders := sortNewestFirst (db.orders.filter (fun o => o.shopkeeper == shopkeeperId))
    (db, ⟨200, .shopkeeperOrders (orders.map (fun o =>
      { doc := o
        user := populateUser db.users o.user
        shopkeeper := populateShop db.users o.shopkeeper }))⟩)

/-! ## `getWeeklyStats`

Instants are milliseconds since the epoch.  `getDate` and `setDate` work on the
local time of the server, `toISOString` on UTC. -/

/-- Milliseconds of one day. -/
def msPerDay : Int := 86400000

/-- Expression `d.toISOString().split("T")[0]`: the calendar day of UTC on which
the instant `t` falls, as a day number. -/
def utcDay (t : Int) : Int :=
  t / msPerDay

/-- The offset of the zone from UTC at the instant `t`: that of the last change
that has happened by `t`. -/
def Zone.utcOffset (zone : Zone) (t : Int) : Int :=
  zone.transitions.foldl (fun offset change => if change.1 ≤ t then change.2 else offset)
    zone.base

/-- The offset by which a local time is read back as an instant. A change of
offset is taken into account when the local time lies after it under the
offset before the change and under the offset after it; a local time that the
change skips or repeats is read with the offset before the change. -/
def Zone.localOffset (zone : Zone) (localTime : Int) : Int :=
  zone.transitions.foldl
    (fun offset change =>
      if change.1 ≤ localTime - offset ∧ change.1 ≤ localTime - change.2 then change.2
      else offset)
    zone.base

/-- The local time of the instant `t`. -/
def Zone.toLocal (zone : Zone) (t : Int) : Int :=
  t + zone.utcOffset t

/-- The instant of a local time. -/
def Zone.toUtc (zone : Zone) (localTime : Int) : Int :=
  localTime - zone.localOffset localTime

/-- Statement `d.setDate(d.getDate() + n)`: the local time of `d` is moved by
`n` calendar days, the local time of day being kept, and read back as an
instant. -/
def addDays (zone : Zone) (t n : Int) : Int :=
  zone.toUtc (zone.toLocal t + n * msPerDay)

/-- The loop `for (let i = 0; i < 7; i++)` of `getWeeklyStats`, for `n`
remaining rounds, with `tempDate` and the array `last7Days` built so far. -/
def emptyDays (zone : Zone) : Nat → Int → List DayStats → List DayStats
  | 0, _, last7Days => last7Days
  | n + 1, tempDate, last7Days =>
    emptyDays zone n (addDays zone tempDate 1)
      (last7Days ++ [{ date := utcDay tempDate, orders := 0, revenue := 0 }])

/-- The update of the first element of `last7Days` whose date is `d`
(`last7Days.find((x) => x.date === d)`, then `orders += 1` and
`revenue += total`); nothing changes when no element has that date. -/
def bumpDay : List DayStats → Int → Int → List DayStats
  | [], _, _ => []
  | x :: rest, d, total =>
    if x.date = d then { x with orders := x.orders + 1, revenue := x.revenue + total } :: rest
    else x :: bumpDay rest d total

/-- The body of `orders.forEach((order) => ...)` of `getWeeklyStats`. -/
def countOrder (last7Days : List DayStats) (order : Order) : List DayStats :=
  bumpDay last7Days (utcDay order.createdAt) order.total

/-- The value of `startDate` in `getWeeklyStats`: six local days before now,
at the present time of day. -/
def weekStart (env : Env) : Int :=
  addDays env.zone env.now (-6)

/-- Query `Order.find((shopkeeper: shopkeeperId, createdAt: ($gte: startDate)))`. -/
def weekOrders (orders : List Order) (shopkeeperId : String) (startDate : Int) : List Order :=
  orders.filter (fun o => o.shopkeeper == shopkeeperId && decide (startDate ≤ (o.createdAt : Int)))

/-- Handler `getWeeklyStats(req, res)`. -/
def getWeeklyStats (env : Env) (db : Db) (req : AuthRequest) : Db × Response :=
  match req.user with
  | none =>
    ({ db with console := db.console ++ ["Weekly stats error:"] },
      ⟨500, .message "Failed to load weekly stats"⟩)
  | some shopkeeperId =>
    let startDate := weekStart env
    let last7Days := emptyDays env.zone 7 startDate []
    let orders := weekOrders db.orders shopkeeperId startDate
    (db, ⟨200, .weekly (orders.foldl countOrder last7Days)⟩)

/-! ## The figures the specification describes for a day -/

/-- The orders of shopkeeper `shopkeeperId` whose `createdAt` falls on the
calendar day `day`. -/
def ordersOn (orders : List Order) (shopkeeperId : String) (day : Int) : List Order :=
  orders.filter (fun o => o.shopkeeper == shopkeeperId && utcDay o.createdAt == day)

/-- The orders `getWeeklyStats` reads for shopkeeper `shopkeeperId` whose
`createdAt` falls on the calendar day `day` of UTC. -/
def countedOn (env : Env) (orders : List Order) (shopkeeperId : String) (day : Int) :
    List Order :=
  (weekOrders orders shopkeeperId (weekStart env)).filter (fun o => utcDay o.createdAt == day)

/-- The seven consecutive calendar days that end with the day of `now`. -/
def weekDays (env : Env) : List Int :=
  [utcDay env.now - 6, utcDay env.now - 5, utcDay env.now - 4, utcDay env.now - 3,
   utcDay env.now - 2, utcDay env.now - 1, utcDay env.now]

/-- The calendar day on which the instant `t` falls in a zone `offset`
milliseconds ahead of UTC. -/
def localDay (offset t : Int) : Int :=
  (t + offset) / msPerDay

/-- The sum of the totals of a list of orders. -/
def totalOf (orders : List Order) : Int :=
  (orders.map Order.total).sum

/-! ## The total the specification describes -/

/-- The total as the specification words it: the sum over the snapshotted
line items of `price * quantity`. -/
def specTotal (items : List OrderItem) : Int :=
  (items.map (fun i => i.price * i.quantity)).sum

/-- The order stored under `id`, as `Order.findById` sees it. -/
def Db.order? (db : Db) (id : String) : Option Order :=
  Order.findById db.orders id

/-- The status stored under `id`, when an order has that id. -/
def Db.status? (db : Db) (id : String) : Option String :=
  (db.order? id).map Order.status

/-! ## The success path of `updateOrderStatus` as one state change -/

/-- The state after the success path of `updateOrderStatus` for the loaded
document `found`. -/
def afterUpdate (env : Env) (db : Db) (found : Order) (status : String) : Db :=
  let order := Order.setStatus env.now found status
  let db2 := notifyStatus env { db with orders := Order.save db.orders order } order status
  { db2 with console := db2.console ++ ["📢 SMS disabled — No SMS sent."] }

/-- The row the notification store gains for the transition of `order` to
`status`. -/
def statusRow (order : Order) (status : String) : Notification :=
  { user := order.user
    title := "Order " ++ status
    message := "Your order #" ++ sliceLast6 order._id ++ " was updated to: " ++ status
    meta := { orderId := order._id, status := status }
    type := "ORDER_UPDATE"
    read := false }

/-! ## The state machine the specification describes -/

/-- The chain of stages as the specification draws it:
Pending, Confirmed, Out for Delivery, Delivered. -/
def stageChain : List String :=
  ["Pending", "Confirmed", "Out for Delivery", "Delivered"]

/-- Status `a` is an earlier stage of the chain than status `b`. -/
def earlierStage (a b : String) : Bool :=
  stageChain.contains a && stageChain.contains b
    && decide (stageChain.indexOf a < stageChain.indexOf b)

/-- The terminal statuses of the specification. -/
def terminal (status : String) : Bool :=
  status == "Delivered" || status == "Cancelled"

/-- Two versions of an order agree on everything the lifecycle must leave
alone: identity, customer, shopkeeper, line items, total, address, delivery
location, creation time and the payment fields. -/
def Order.SameButStatus (o o2 : Order) : Prop :=
  o2._id = o._id ∧ o2.user = o.user ∧ o2.shopkeeper = o.shopkeeper ∧ o2.items = o.items
    ∧ o2.total = o.total ∧ o2.address = o.address ∧ o2.deliveryLocation = o.deliveryLocation
    ∧ o2.createdAt = o.createdAt ∧ o2.paymentMethod = o.paymentMethod ∧ o2.paid = o.paid
    ∧ o2.paymentProvider = o.paymentProvider ∧ o2.paymentId = o.paymentId
    ∧ o2.paidAt = o.paidAt ∧ o2.paymentMetadata = o.paymentMetadata

/-! ## The order router (`routers/orderRoutes.js`) -/

/-- HTTP method of a route. -/
inductive Method where
  | GET
  | POST
  | PUT
deriving DecidableEq, Repr

/-- The middlewares the order router mounts. -/
inductive Middleware where
  | protect
  | isUser
  | isShopkeeper
deriving DecidableEq, Repr

/-- The handlers of `orderController.js`. -/
inductive OrderHandler where
  | getUserOrders
  | createOrder
  | getShopkeeperOrders
  | getWeeklyStats
  | getOrderDetails
  | updateOrderStatus
deriving DecidableEq, Repr

/-- One declaration `router.METHOD(path, ...middlewares, handler)`. -/
structure OrderRoute where
  method : Method
  path : String
  middlewares : List Middleware
  handler : OrderHandler
deriving DecidableEq, Repr

/-- The routes of the order router, in the order of their declaration. -/
def orderRoutes : List OrderRoute :=
  [ ⟨.GET, "/my", [.protect, .isUser], .getUserOrders⟩,
    ⟨.POST, "/", [.protect, .isUser], .createOrder⟩,
    ⟨.GET, "/my-shop-orders", [.protect, .isShopkeeper], .getShopkeeperOrders⟩,
    ⟨.GET, "/my-shop-orders-weekly", [.protect, .isShopkeeper], .getWeeklyStats⟩,
    ⟨.GET, "/:id", [.protect], .getOrderDetails⟩,
    ⟨.PUT, "/:id", [.protect, .isShopkeeper], .updateOrderStatus⟩ ]

/-- The segments of a path between slashes, with `cur` the segment being read;
empty segments are dropped. -/
def splitSlash : List Char → List Char → List (List Char)
  | [], cur => if cur.isEmpty then [] else [cur]
  | c :: cs, cur =>
    if c = '/' then
      if cur.isEmpty then splitSlash cs [] else cur :: splitSlash cs []
    else splitSlash cs (cur ++ [c])

/-- The segments of a path. -/
def segments (path : String) : List (List Char) :=
  splitSlash path.data []

/-- Match of the segments of a pattern against the segments of a path: a
segment `:name` of the pattern takes any segment and binds it to `name`, any
other segment must be equal. The result is the list of bound parameters. -/
def matchSegments : List (List Char) → List (List Char) → Option (List (String × String))
  | [], [] => some []
  | p :: ps, s :: ss =>
    match p with
    | ':' :: name => (matchSegments ps ss).map (fun rest => (String.mk name, String.mk s) :: rest)
    | _ => if p = s then matchSegments ps ss else none
  | _, _ => none

/-- Match of a whole path against a route pattern. -/
def matchPath (pattern path : String) : Option (List (String × String)) :=
  matchSegments (segments pattern) (segments path)

/-- First-match routing over a list of declared routes: the handler of the
first route of that method whose pattern matches, with the bound parameters. -/
def dispatch : List OrderRoute → Method → String → Option (OrderHandler × List (String × String))
  | [], _, _ => none
  | r :: rest, m, path =>
    if r.method = m then
      match matchPath r.path path with
      | some params => some (r.handler, params)
      | none => dispatch rest m path
    else dispatch rest m path

/-- The identity a request carries after authentication. -/
structure Requester where
  _id : String
  role : String
deriving DecidableEq, Repr

/-- Modelled from the spec: the middlewares `protect`, `isUser` and
`isShopkeeper` (`middlewares/authMiddleware.js`, `middlewares/roleMiddleware.js`)
are not among the sources. `protect` lets a request pass when it carries an
authenticated identity; the role middlewares when that identity is a customer,
respectively a shopkeeper. -/
def Middleware.passes (m : Middleware) (user : Option Requester) : Bool :=
  match m, user with
  | _, none => false
  | .protect, some _ => true
  | .isUser, some u => u.role == "user"
  | .isShopkeeper, some u => u.role == "shopkeeper"

/-! ## The route table of the client (`App.jsx`) -/

/-- A child of a `Route`: its `path`, or `none` for an `index` route, and the
name of its element. -/
structure ChildRoute where
  path : Option String
  element : String
deriving DecidableEq, Repr

/-- A `Route` of the `Routes` of `App`, with its nested routes. -/
structure AppRoute where
  path : String
  element : String
  children : List ChildRoute
deriving DecidableEq, Repr

/-- The `Routes` of `App`, in the order of their declaration. -/
def appRoutes : List AppRoute :=
  [ ⟨"/", "Home", []⟩,
    ⟨"/login", "Login", []⟩,
    ⟨"/", "Home", []⟩,
    ⟨"/category/:categoryName", "Categorypage", []⟩,
    ⟨"/offers", "OffersPage", []⟩,
    ⟨"/cart", "Cart", []⟩,
    ⟨"/my-orders", "MyOrders", []⟩,
    ⟨"/products", "Products", []⟩,
    ⟨"/shop/:shopId", "ShopsPage", []⟩,
    ⟨"/add-delivery-address", "AddDeliveryAddress", []⟩,
    ⟨"/select-address", "SelectAddress", []⟩,
    ⟨"/payment", "Payment", []⟩,
    ⟨"/shopkeeper", "ShopkeeperLayout",
      [ ⟨none, "ShopkeeperDashboard"⟩,
        ⟨some "settings", "ShopkeeperSettings"⟩,
        ⟨some "add-product", "AddProduct"⟩,
        ⟨some "productlist", "ProductList"⟩,
        ⟨some "orders", "Orders"⟩ ]⟩ ]

/-- The full patterns a route stands for: its own path, and its path followed
by the path of each child. -/
def AppRoute.branches (r : AppRoute) : List (String × String) :=
  (r.path, r.element) ::
    r.children.map (fun c =>
      match c.path with
      | none => (r.path, c.element)
      | some child => (r.path ++ "/" ++ child, c.element))

/-- The elements of the routes of `App` a location matches. -/
def matchApp (routes : List AppRoute) (location : String) : List String :=
  ((routes.map AppRoute.branches).flatten.filter
    (fun b => (matchPath b.1 location).isSome)).map Prod.snd

/-- The location `handleViewDetails` of the shopkeeper Orders page sets. -/
def orderDetailsHref (orderId : String) : String :=
  "/shopkeeper/order-details/" ++ orderId

/-! ## The shopkeeper pages of the client -/

/-- Outcome of `API.put`: there is no response (`none`), or a response; the
promise is rejected unless the response has a status from 200 to 299. -/
def putFails (response : Option Response) : Bool :=
  match response with
  | none => true
  | some r => !(decide (200 ≤ r.status) && decide (r.status < 300))

/-- State of the shopkeeper Orders page, with what it wrote to the console and
what it showed in alerts. -/
structure OrdersPage where
  orders : List ShopkeeperOrderView
  console : List String
  alerts : List String
deriving DecidableEq, Repr

/-- The state update of `handleStatusUpdate(orderId, newStatus)`. -/
def handleStatusUpdate (orders : List ShopkeeperOrderView) (orderId newStatus : String) :
    List ShopkeeperOrderView :=
  orders.map (fun o =>
    if o.doc._id = orderId then { o with doc := { o.doc with status := newStatus } } else o)

/-- The handler `handleChange` of `OrderCard` for the card of `order`, with the
outcome of the request `PUT /orders/:id`. -/
def OrderCard.handleChange (page : OrdersPage) (order : ShopkeeperOrderView)
    (newStatus : String) (response : Option Response) : OrdersPage :=
  let page1 := { page with orders := handleStatusUpdate page.orders order.doc._id newStatus }
  if putFails response then
    { page1 with console := page1.console ++ ["Status update error:"] }
  else page1

/-- State of the order-details page once the order is loaded (the select that
calls `updateStatus` is rendered only then). -/
structure DetailsPage where
  order : PopulatedOrder
  updating : Bool
  console : List String
  alerts : List String
deriving DecidableEq, Repr

/-- The function `updateStatus(newStatus)` of `ShopkeeperOrderDetails`, with the
outcome of the request `PUT /orders/:id`. -/
def updateStatus (page : DetailsPage) (newStatus : String) (response : Option Response) :
    DetailsPage :=
  let page1 := { page with updating := true }
  let page2 :=
    if putFails response then
      { page1 with console := page1.console ++ ["error"],
                   alerts := page1.alerts ++ ["Failed to update order"] }
    else
      { page1 with order := { page1.order with doc := { page1.order.doc with status := newStatus } },
                   alerts := page1.alerts ++ ["Order Updated Successfully!"] }
  { page2 with updating := false }

/-- The statement `new Date(t).toDateString()`: the calendar day of the instant
`t` in the zone of the browser, as a day number; `zone t` is the offset of that
zone from UTC at `t`, in milliseconds. -/
def toDateString (zone : Int → Int) (t : Int) : Int :=
  localDay (zone t) t

/-- The value of `todayRevenue` computed by `loadDashboard`. -/
def todayRevenue (zone : Int → Int) (now : Int) (orders : List ShopkeeperOrderView) : Int :=
  orders.foldl (fun revenue order =>
    if order.doc.status = "Delivered" then
      if toDateString zone order.doc.updatedAt = toDateString zone now then
        revenue + order.doc.total
      else revenue
    else revenue) 0

/-! ## The notifications of the client (`AppContext.jsx`) -/

/-- A notification as the client holds it; a field the object lacks is `none`. -/
structure ClientNotification where
  _id : Option String
  id : Option String
  title : String
  message : String
  isRead : Bool
deriving DecidableEq, Repr

/-- The state update of the handler of the socket event `notification`:
`[payload, ...prev]`. -/
def onNotification (payload : ClientNotification) (prev : List ClientNotification) :
    List ClientNotification :=
  payload :: prev

/-- The test `n._id === id || n.id === id`. -/
def matchesId (id : Option String) (n : ClientNotification) : Bool :=
  n._id == id || n.id == id

/-- The state update of `markNotificationRead(id)`. -/
def markNotificationRead (id : Option String) (prev : List ClientNotification) :
    List ClientNotification :=
  prev.map (fun n => if matchesId id n then { n with isRead := true } else n)

/-! ## The product list of the shopkeeper (`ProductList.jsx`) -/

/-- A product as the product list holds it. -/
structure ClientProduct where
  _id : String
  name : String
  inStock : Bool
deriving DecidableEq, Repr

/-- State of the product list page: the pending timer holds the id and the
product of the delete it will carry out. -/
structure ProductListPage where
  shopkeeperProducts : List ClientProduct
  total : Nat
  deletedProduct : Option ClientProduct
  showUndo : Bool
  undoTimeout : Option (String × ClientProduct)
  toasts : List String
deriving DecidableEq, Repr

/-- The function `handleDelete(id)`. -/
def handleDelete (page : ProductListPage) (id : String) : ProductListPage :=
  match page.shopkeeperProducts.find? (fun p => p._id == id) with
  | none => page
  | some product =>
    { page with
      shopkeeperProducts := page.shopkeeperProducts.filter (fun p => p._id != id)
      deletedProduct := some product
      showUndo := true
      undoTimeout := some (id, product) }

/-- The function `handleUndo()`. -/
def handleUndo (page : ProductListPage) : ProductListPage :=
  let page1 := { page with undoTimeout := none }
  let page2 :=
    match page1.deletedProduct with
    | some deleted =>
      { page1 with
        shopkeeperProducts := deleted :: page1.shopkeeperProducts
        total := page1.total + 1
        toasts := page1.toasts ++ ["Delete undone"] }
    | none => page1
  { page2 with showUndo := false, deletedProduct := none }

/-- The callback of the timer set by `handleDelete`, five seconds later, with
the outcome of the request `DELETE /products/:id`. -/
def undoTimeoutFires (page : ProductListPage) (deleteOk : Bool) : ProductListPage :=
  match page.undoTimeout with
  | none => page
  | some (_, product) =>
    let page1 :=
      if deleteOk then
        { page with total := page.total - 1, toasts := page.toasts ++ ["Product deleted"] }
      else
        { page with toasts := page.toasts ++ ["Delete failed"],
                    shopkeeperProducts := product :: page.shopkeeperProducts }
    { page1 with showUndo := false, deletedProduct := none, undoTimeout := none }

/-! ## The end-to-end scenario -/

/-- The scenario of the specification: the customer creates an order, the
shopkeeper named in it moves it to Confirmed, Out for Delivery and Delivered,
and the order is read back with `getOrderDetails`. -/
def scenario (e0 e1 e2 e3 : Env) (db : Db) (req : CreateRequest) : Db × Response :=
  match createOrder e0 db req with
  | (db1, ⟨_, .order _ order⟩) =>
    let db2 := (updateOrderStatus e1 db1
      ⟨some order.shopkeeper, order._id, .str "Confirmed"⟩).1
    let db3 := (updateOrderStatus e2 db2
      ⟨some order.shopkeeper, order._id, .str "Out for Delivery"⟩).1
    let db4 := (updateOrderStatus e3 db3
      ⟨some order.shopkeeper, order._id, .str "Delivered"⟩).1
    getOrderDetails db4 ⟨order._id⟩
  | other => other

/-! ## Sample data -/

/-- A pending order of customer `u1` at the shop of `s1`. -/
def sampleOrder : Order :=
  { _id := "o1", user := "u1", shopkeeper := "s1",
    items := [{ product := "p1", name := "Rice", price := 10, quantity := 2, image := none }],
    total := 20, address := "12 Main Road", paymentMethod := "UPI", paid := false,
    paymentProvider := none, paymentId := none, paidAt := none, paymentMetadata := [],
    deliveryLocation := none, status := "Pending", createdAt := 100, updatedAt := 100 }

/-- A database with one product and the order `sampleOrder`. -/
def sampleDb : Db :=
  { products := [{ _id := "p1", name := "Rice", price := 10, images := ["rice.png"] }],
    users := [], orders := [sampleOrder], notifications := [], console := [] }

/-- The database `sampleDb` with the order in the given status. -/
def sampleDbIn (status : String) : Db :=
  { sampleDb with orders := [{ sampleOrder with status := status }] }

/-- An environment whose notification store accepts writes. -/
def sampleEnv : Env :=
  { now := 200, freshId := "o2", notificationStoreOk := true }

/-- An environment whose notification store rejects writes. -/
def failingEnv : Env :=
  { now := 200, freshId := "o2", notificationStoreOk := false }

/-- A request body ordering two units of product `productId` from `s1` with the
stated `totalAmount`. -/
def sampleBody (productId : String) (totalAmount : Int) : CreateBody :=
  { items := some [{ productId := productId, quantity := 2 }], totalAmount := totalAmount,
    address := "12 Main Road", paymentMethod := none, shopkeeperId := some "s1",
    deliveryLocation := none }

/-- The clock at noon of day 6: the week starts at noon of day 0. -/
def weekEnv : Env :=
  { now := 561600000, freshId := "o9", notificationStoreOk := true }

/-- Orders of a week: `w1` of shop `s1` at 01:00 of day 0, `w2` and `w3` of shop
`s1` on day 3, `w4` of shop `s2` on day 3. -/
def weekDb : Db :=
  { sampleDb with
    orders :=
      [{ sampleOrder with _id := "w1", createdAt := 3600000, updatedAt := 3600000, total := 20 },
       { sampleOrder with _id := "w2", createdAt := 259200100, updatedAt := 259200100,
                          total := 30, status := "Delivered" },
       { sampleOrder with _id := "w3", createdAt := 259205000, updatedAt := 259205000,
                          total := 5 },
       { sampleOrder with _id := "w4", shopkeeper := "s2", createdAt := 259200000,
                          updatedAt := 259200000, total := 7 }] }

/-- The clock at 2026-03-12 23:30 UTC on a server in the zone of New York:
five hours behind UTC, and four hours behind from 2026-03-08 07:00 UTC on. -/
def dstEnv : Env :=
  { now := 1773358200000, freshId := "o9", notificationStoreOk := true,
    zone := ⟨-18000000, [(1772953200000, -14400000)]⟩ }

/-- The clock at 20:00 UTC of day 10, which is 01:30 of day 11 in a zone five
and a half hours ahead of UTC. -/
def lateEnv : Env :=
  { now := 936000000, freshId := "o9", notificationStoreOk := true,
    zone := ⟨19800000, []⟩ }

/-- One order of shop `s1` created at 19:00 UTC of day 10, which is 00:30 of
day 11 in a zone five and a half hours ahead of UTC. -/
def lateDb : Db :=
  { sampleDb with
    orders := [{ sampleOrder with _id := "n1", createdAt := 932400000,
                                  updatedAt := 932400000, total := 40 }] }

/-- The orders of `weekDb`, all of them Delivered. -/
def weekDbDelivered : Db :=
  { weekDb with orders := weekDb.orders.map (fun o => { o with status := "Delivered" }) }

/-- A catalogue with the product `p5`, priced 250, and no order yet. -/
def shopDb : Db :=
  { products := [{ _id := "p5", name := "Basmati", price := 250, images := [] }],
    users := [], orders := [], notifications := [], console := [] }

/-- The body of an order of two units of `p5` at shop `s1`, with `totalAmount`
500. -/
def scenarioBody : CreateBody :=
  { items := some [{ productId := "p5", quantity := 2 }], totalAmount := 500,
    address := "12 Main Road", paymentMethod := none, shopkeeperId := some "s1",
    deliveryLocation := none }

/-- The order `sampleOrder` as the shopkeeper listing returns it. -/
def sampleView : ShopkeeperOrderView :=
  { doc := sampleOrder, user := none, shopkeeper := none }

/-- The shopkeeper Orders page showing `sampleOrder`, which is Pending. -/
def sampleOrdersPage : OrdersPage :=
  { orders := [sampleView], console := [], alerts := [] }

/-- The order-details page showing `sampleOrder`, which is Pending. -/
def sampleDetailsPage : DetailsPage :=
  { order := { doc := sampleOrder, user := none, shopkeeper := none, products := [] },
    updating := false, console := [], alerts := [] }

/-- The response 404 of `updateOrderStatus`. -/
def notFoundResponse : Response :=
  ⟨404, .message "Order not found or unauthorized"⟩

/-- A notification loaded by the backlog fetch. -/
def sampleNotification : ClientNotification :=
  { _id := some "n1", id := none, title := "Order Confirmed",
    message := "Your order #o1 was updated to: Confirmed", isRead := false }

/-- A product list page with two products and `total` 2. -/
def sampleProductPage : ProductListPage :=
  { shopkeeperProducts := [⟨"p1", "Rice", true⟩, ⟨"p2", "Milk", true⟩], total := 2,
    deletedProduct := none, showUndo := false, undoTimeout := none, toasts := [] }

/-! ## Lemmas on the data layer -/

theorem eq_of_mem_of_id_eq {orders : List Order} (hu : (orders.map Order._id).Nodup)
    {a b : Order} (ha : a ∈ orders) (hb : b ∈ orders) (h : a._id = b._id) : a = b :=
  List.inj_on_of_nodup_map hu ha hb h

theorem findOne_some {orders : List Order} {id sk : String} {o : Order}
    (h : Order.findOne orders id sk = some o) :
    o ∈ orders ∧ o._id = id ∧ o.shopkeeper = sk := by
  unfold Order.findOne at h
  have hm := List.mem_of_find?_eq_some h
  have hp := List.find?_some h
  simp at hp
  exact ⟨hm, hp.1, hp.2⟩

theorem findOne_owner {orders : List Order} (hu : (orders.map Order._id).Nodup)
    {o : Order} (ho : o ∈ orders) : Order.findOne orders o._id o.shopkeeper = some o := by
  cases hf : Order.findOne orders o._id o.shopkeeper with
  | none =>
    unfold Order.findOne at hf
    have := List.find?_eq_none.mp hf o ho
    simp at this
  | some x =>
    obtain ⟨hx, hid, _⟩ := findOne_some hf
    rw [eq_of_mem_of_id_eq hu hx ho hid]

theorem findOne_foreign {orders : List Order} (hu : (orders.map Order._id).Nodup)
    {o : Order} (ho : o ∈ orders) {caller : String} (hc : caller ≠ o.shopkeeper) :
    Order.findOne orders o._id caller = none := by
  cases hf : Order.findOne orders o._id caller with
  | none => rfl
  | some x =>
    obtain ⟨hx, hid, hsk⟩ := findOne_some hf
    have := eq_of_mem_of_id_eq hu hx ho hid
    subst this
    exact absurd hsk.symm hc

theorem findById_mem {orders : List Order} (hu : (orders.map Order._id).Nodup)
    {o : Order} (ho : o ∈ orders) : Order.findById orders o._id = some o := by
  cases hf : Order.findById orders o._id with
  | none =>
    unfold Order.findById at hf
    have := List.find?_eq_none.mp hf o ho
    simp at this
  | some x =>
    unfold Order.findById at hf
    have hx := List.mem_of_find?_eq_some hf
    have hp := List.find?_some hf
    simp at hp
    rw [eq_of_mem_of_id_eq hu hx ho hp]

theorem findById_save {orders : List Order} {doc o : Order} (ho : o ∈ orders)
    (hid : o._id = doc._id) : Order.findById (Order.save orders doc) doc._id = some doc := by
  unfold Order.findById Order.save
  induction orders with
  | nil => cases ho
  | cons a rest ih =>
    by_cases ha : a._id = doc._id
    · simp [List.find?, ha]
    · have hmem : o ∈ rest := by
        rcases List.mem_cons.mp ho with h | h
        · subst h; exact absurd hid ha
        · exact h
      simp only [List.map_cons, if_neg ha, List.find?_cons]
      have : (a._id == doc._id) = false := by simpa using ha
      rw [this]
      exact ih hmem

theorem setStatus_status (now : Nat) (o : Order) (s : String) :
    (Order.setStatus now o s).status = s := by
  unfold Order.setStatus
  split <;> simp_all

theorem setStatus_same (now : Nat) (o : Order) (s : String) :
    Order.SameButStatus o (Order.setStatus now o s) := by
  unfold Order.setStatus Order.SameButStatus
  split <;> simp

theorem setStatus_id (now : Nat) (o : Order) (s : String) :
    (Order.setStatus now o s)._id = o._id :=
  (setStatus_same now o s).1

theorem includes_str {s : String} : includes allowed (.str s) = true ↔ s ∈ allowed := by
  simp [includes]

/-! ## The paths of `updateOrderStatus` -/

theorem updateOrderStatus_found (env : Env) (db : Db) {sk id s : String} {found : Order}
    (hs : s ∈ allowed) (hf : Order.findOne db.orders id sk = some found) :
    updateOrderStatus env db ⟨some sk, id, .str s⟩
      = (afterUpdate env db found s,
          ⟨200, .order "Order updated" (Order.setStatus env.now found s)⟩) := by
  simp only [updateOrderStatus, includes_str.mpr hs, hf, afterUpdate, if_true]

theorem updateOrderStatus_missing (env : Env) (db : Db) {sk id s : String}
    (hs : s ∈ allowed) (hf : Order.findOne db.orders id sk = none) :
    updateOrderStatus env db ⟨some sk, id, .str s⟩
      = (db, ⟨404, .message "Order not found or unauthorized"⟩) := by
  simp only [updateOrderStatus, includes_str.mpr hs, hf, if_true]

theorem updateOrderStatus_invalid (env : Env) (db : Db) (sk id : String) {v : JsValue}
    (hv : includes allowed v = false) :
    updateOrderStatus env db ⟨some sk, id, v⟩ = (db, ⟨400, .message "Invalid status"⟩) := by
  cases v <;> simp_all [updateOrderStatus]

theorem updateOrderStatus_success {env : Env} {db db2 : Db} {req : StatusRequest}
    {r : Response} (h : updateOrderStatus env db req = (db2, r)) (hr : r.status = 200) :
    ∃ sk s found, req.user = some sk ∧ req.status = .str s ∧ s ∈ allowed
      ∧ Order.findOne db.orders req.id sk = some found
      ∧ db2 = afterUpdate env db found s
      ∧ r = ⟨200, .order "Order updated" (Order.setStatus env.now found s)⟩ := by
  obtain ⟨user, id, v⟩ := req
  cases user with
  | none =>
    simp [updateOrderStatus] at h
    rw [← h.2] at hr
    simp at hr
  | some sk =>
    by_cases hv : includes allowed v = true
    · cases v with
      | str s =>
        have hs := includes_str.mp hv
        cases hf : Order.findOne db.orders id sk with
        | none =>
          rw [updateOrderStatus_missing env db hs hf] at h
          simp at h
          rw [← h.2] at hr
          simp at hr
        | some found =>
          rw [updateOrderStatus_found env db hs hf] at h
          simp at h
          exact ⟨sk, s, found, rfl, rfl, hs, hf, h.1.symm, h.2.symm⟩
      | _ => simp [includes] at hv
    · have hv2 : includes allowed v = false := by simpa using hv
      rw [updateOrderStatus_invalid env db sk id hv2] at h
      simp at h
      rw [← h.2] at hr
      simp at hr

theorem notifyStatus_orders (env : Env) (db : Db) (o : Order) (s : String) :
    (notifyStatus env db o s).orders = db.orders := by
  unfold notifyStatus
  split <;> rfl

theorem afterUpdate_orders (env : Env) (db : Db) (found : Order) (s : String) :
    (afterUpdate env db found s).orders
      = Order.save db.orders (Order.setStatus env.now found s) := by
  simp only [afterUpdate, notifyStatus_orders]

theorem afterUpdate_order (env : Env) (db : Db) {found : Order} (s : String)
    (hm : found ∈ db.orders) :
    (afterUpdate env db found s).order? found._id = some (Order.setStatus env.now found s) := by
  unfold Db.order?
  rw [afterUpdate_orders]
  have := @findById_save db.orders (Order.setStatus env.now found s) found hm
    (setStatus_id env.now found s).symm
  rwa [setStatus_id] at this

theorem sampleDb_unique : sampleDb.UniqueIds := by
  simp [Db.UniqueIds, sampleDb]

theorem sampleDbIn_unique (status : String) : (sampleDbIn status).UniqueIds := by
  simp [Db.UniqueIds, sampleDbIn]

/-! ## Transitions requested by a shopkeeper who does not own the order -/

/-- C1, as stated, fails: the order `o1` belongs to shopkeeper `s1`; shopkeeper
`s2` asks for the status `Shipped`, which is not enumerated, and the answer is
400 `Invalid status`, not the 404 `Order not found or unauthorized`. -/
theorem updateOrderStatus_foreign_invalid_status_400 :
    sampleOrder ∈ sampleDb.orders ∧ "s2" ≠ sampleOrder.shopkeeper
      ∧ updateOrderStatus sampleEnv sampleDb ⟨some "s2", "o1", .str "Shipped"⟩
          = (sampleDb, ⟨400, .message "Invalid status"⟩)
      ∧ (updateOrderStatus sampleEnv sampleDb ⟨some "s2", "o1", .str "Shipped"⟩).2.status
          ≠ 404 := by
  decide

/-- C1, amended: for every stored order and every shopkeeper other than the
order's own, a request with an enumerated status is answered 404
`Order not found or unauthorized`, and for every requested status, enumerated
or not, the database is left as it was, so the stored order keeps its status. -/
theorem updateOrderStatus_foreign_shopkeeper (env : Env) (db : Db) (o : Order)
    (caller : String) (v : JsValue) (hu : db.UniqueIds) (ho : o ∈ db.orders)
    (hc : caller ≠ o.shopkeeper) :
    (includes allowed v = true →
        (updateOrderStatus env db ⟨some caller, o._id, v⟩).2
          = ⟨404, .message "Order not found or unauthorized"⟩)
      ∧ (updateOrderStatus env db ⟨some caller, o._id, v⟩).1 = db
      ∧ (updateOrderStatus env db ⟨some caller, o._id, v⟩).1.order? o._id = some o
      ∧ (updateOrderStatus env db ⟨some caller, o._id, v⟩).1.status? o._id
          = some o.status := by
  have hfind := findOne_foreign hu ho hc
  have hdb : (updateOrderStatus env db ⟨some caller, o._id, v⟩).1 = db := by
    by_cases hv : includes allowed v = true
    · cases v with
      | str s => rw [updateOrderStatus_missing env db (includes_str.mp hv) hfind]
      | _ => simp [includes] at hv
    · have hv2 : includes allowed v = false := by simpa using hv
      rw [updateOrderStatus_invalid env db caller o._id hv2]
  refine ⟨?_, hdb, ?_, ?_⟩
  · intro hv
    cases v with
    | str s => rw [updateOrderStatus_missing env db (includes_str.mp hv) hfind]
    | _ => simp [includes] at hv
  · rw [hdb]
    exact findById_mem hu ho
  · rw [hdb]
    simp [Db.status?, Db.order?, findById_mem hu ho]

/-- Witness of `updateOrderStatus_foreign_shopkeeper`: shopkeeper `s2` asks to
deliver the order of shopkeeper `s1`. -/
theorem updateOrderStatus_foreign_shopkeeper_witness :
    (updateOrderStatus sampleEnv sampleDb ⟨some "s2", sampleOrder._id, .str "Delivered"⟩).2
        = ⟨404, .message "Order not found or unauthorized"⟩
      ∧ (updateOrderStatus sampleEnv sampleDb
          ⟨some "s2", sampleOrder._id, .str "Delivered"⟩).1.status? sampleOrder._id
        = some "Pending" :=
  have h := updateOrderStatus_foreign_shopkeeper sampleEnv sampleDb sampleOrder "s2"
    (.str "Delivered") sampleDb_unique (by decide) (by decide)
  ⟨h.1 (by decide), h.2.2.2⟩

/-! ## Transitions requested by the owner -/

/-- C2: for every stored order and every enumerated status, the request of the
order's shopkeeper is answered 200 with the updated order, the stored status
becomes the requested one, and `getOrderDetails` on that id right afterwards
answers 200 with an order in the requested status. -/
theorem updateOrderStatus_owner_persists (env : Env) (db : Db) (o : Order) (s : String)
    (hu : db.UniqueIds) (ho : o ∈ db.orders) (hs : s ∈ allowed) :
    (updateOrderStatus env db ⟨some o.shopkeeper, o._id, .str s⟩).2
        = ⟨200, .order "Order updated" (Order.setStatus env.now o s)⟩
      ∧ (Order.setStatus env.now o s).status = s
      ∧ (updateOrderStatus env db ⟨some o.shopkeeper, o._id, .str s⟩).1.status? o._id = some s
      ∧ ∃ p : PopulatedOrder,
          (getOrderDetails (updateOrderStatus env db ⟨some o.shopkeeper, o._id, .str s⟩).1
              ⟨o._id⟩).2 = ⟨200, .details p⟩
            ∧ p.doc._id = o._id ∧ p.doc.status = s := by
  rw [updateOrderStatus_found env db hs (findOne_owner hu ho)]
  have hq := afterUpdate_order env db s ho
  refine ⟨rfl, setStatus_status _ _ _, ?_, ?_⟩
  · simp [Db.status?, hq, setStatus_status]
  · unfold Db.order? at hq
    simp only [getOrderDetails, hq]
    exact ⟨_, rfl, setStatus_id _ _ _, setStatus_status _ _ _⟩

/-- Witness of `updateOrderStatus_owner_persists`: shopkeeper `s1` confirms the
own pending order. -/
theorem updateOrderStatus_owner_persists_witness :
    (updateOrderStatus sampleEnv sampleDb ⟨some "s1", "o1", .str "Confirmed"⟩).1.status? "o1"
      = some "Confirmed" :=
  (updateOrderStatus_owner_persists sampleEnv sampleDb sampleOrder "Confirmed"
    sampleDb_unique (by decide) (by decide)).2.2.1

/-! ## Terminal statuses -/

/-- C3, as stated, fails: the order `o1` is Delivered; its shopkeeper `s1` asks
for Pending, the answer is 200 and the stored status is Pending. -/
theorem updateOrderStatus_leaves_delivered :
    terminal "Delivered" = true
      ∧ (sampleDbIn "Delivered").status? "o1" = some "Delivered"
      ∧ (updateOrderStatus sampleEnv (sampleDbIn "Delivered")
          ⟨some "s1", "o1", .str "Pending"⟩).2.status = 200
      ∧ (updateOrderStatus sampleEnv (sampleDbIn "Delivered")
          ⟨some "s1", "o1", .str "Pending"⟩).1.status? "o1" = some "Pending" := by
  decide

/-- C3, amended: a terminal status is not locked. For every stored order that
is Delivered or Cancelled, a request of its shopkeeper with an enumerated status
sets the stored status to the requested one, and a request with a status that
is not enumerated leaves the stored status as it was. -/
theorem updateOrderStatus_terminal_not_locked (env : Env) (db : Db) (o : Order)
    (v : JsValue) (hu : db.UniqueIds) (ho : o ∈ db.orders)
    (_ht : terminal o.status = true) :
    (∀ s, v = .str s → s ∈ allowed →
        (updateOrderStatus env db ⟨some o.shopkeeper, o._id, v⟩).1.status? o._id = some s)
      ∧ (includes allowed v = false →
        (updateOrderStatus env db ⟨some o.shopkeeper, o._id, v⟩).1.status? o._id
          = some o.status) := by
  constructor
  · intro s hv hs
    subst hv
    rw [updateOrderStatus_found env db hs (findOne_owner hu ho)]
    simp [Db.status?, afterUpdate_order env db s ho, setStatus_status]
  · intro hv
    rw [updateOrderStatus_invalid env db o.shopkeeper o._id hv]
    simp [Db.status?, Db.order?, findById_mem hu ho]

/-- Witness of `updateOrderStatus_terminal_not_locked`: a cancelled order is
confirmed by its shopkeeper. -/
theorem updateOrderStatus_terminal_not_locked_witness :
    (updateOrderStatus sampleEnv (sampleDbIn "Cancelled")
      ⟨some "s1", "o1", .str "Confirmed"⟩).1.status? "o1" = some "Confirmed" :=
  (updateOrderStatus_terminal_not_locked sampleEnv (sampleDbIn "Cancelled")
    { sampleOrder with status := "Cancelled" } (.str "Confirmed")
    (sampleDbIn_unique "Cancelled") (by decide) (by decide)).1 "Confirmed" rfl (by decide)

/-! ## The total of a created order -/

theorem createOrder_created {env : Env} {db db2 : Db} {req : CreateRequest} {r : Response}
    (h : createOrder env db req = (db2, r)) (hr : r.status = 201) :
    ∃ userId orderItems, req.user = some userId
      ∧ noItems req.body.items = false ∧ truthy req.body.shopkeeperId = true
      ∧ orderItemsLoop db.products (req.body.items.getD []) [] = .ok orderItems
      ∧ r = ⟨201, .order "Order created successfully"
              (newOrder env userId req.body orderItems)⟩
      ∧ db2 = { db with orders := db.orders ++ [newOrder env userId req.body orderItems] } := by
  unfold createOrder at h
  split at h
  · simp at h; rw [← h.2] at hr; simp at hr
  · rename_i userId hu
    split at h
    · simp at h; rw [← h.2] at hr; simp at hr
    · rename_i hn
      split at h
      · simp at h; rw [← h.2] at hr; simp at hr
      · rename_i hsk
        split at h
        · simp at h; rw [← h.2] at hr; simp at hr
        · rename_i orderItems hl
          simp at h
          exact ⟨userId, orderItems, hu, by simpa using hn, by simpa using hsk, hl,
            h.2.symm, h.1.symm⟩

/-- C4, as stated, fails: customer `u1` orders two units of the product `p1`,
priced 10 in the catalog, with `totalAmount` 1; the order is created with total
1, while its line items sum to 20. -/
theorem createOrder_total_differs_from_items :
    (createOrder sampleEnv sampleDb ⟨some "u1", sampleBody "p1" 1⟩).2
        = ⟨201, .order "Order created successfully"
            (newOrder sampleEnv "u1" (sampleBody "p1" 1)
              [{ product := "p1", name := "Rice", price := 10, quantity := 2,
                 image := some "rice.png" }])⟩
      ∧ (newOrder sampleEnv "u1" (sampleBody "p1" 1)
          [{ product := "p1", name := "Rice", price := 10, quantity := 2,
             image := some "rice.png" }]).total = 1
      ∧ specTotal (newOrder sampleEnv "u1" (sampleBody "p1" 1)
          [{ product := "p1", name := "Rice", price := 10, quantity := 2,
             image := some "rice.png" }]).items = 20 := by
  decide

/-- C4, amended: the total of every order created by `createOrder` equals the
`totalAmount` of the request body, for every request body; the created order is
the one appended to the order collection. -/
theorem createOrder_total_is_totalAmount (env : Env) (db db2 : Db) (req : CreateRequest)
    (r : Response) (h : createOrder env db req = (db2, r)) (hr : r.status = 201) :
    ∃ order, r.body = .order "Order created successfully" order
      ∧ order.total = req.body.totalAmount
      ∧ db2.orders = db.orders ++ [order] := by
  obtain ⟨userId, orderItems, _, _, _, _, hr2, hdb⟩ := createOrder_created h hr
  subst hr2 hdb
  exact ⟨_, rfl, rfl, rfl⟩

/-- Witness of `createOrder_total_is_totalAmount`: the request of customer `u1`
with `totalAmount` 1 is answered 201. -/
theorem createOrder_total_is_totalAmount_witness :
    ∃ order, (createOrder sampleEnv sampleDb ⟨some "u1", sampleBody "p1" 1⟩).2.body
        = .order "Order created successfully" order
      ∧ order.total = 1
      ∧ (createOrder sampleEnv sampleDb ⟨some "u1", sampleBody "p1" 1⟩).1.orders
        = sampleDb.orders ++ [order] :=
  createOrder_total_is_totalAmount sampleEnv sampleDb _ ⟨some "u1", sampleBody "p1" 1⟩ _
    rfl (by decide)

/-! ## The notification of a transition -/

theorem afterUpdate_notifications_ok (env : Env) (db : Db) (found : Order) (s : String)
    (hok : env.notificationStoreOk = true) :
    (afterUpdate env db found s).notifications
      = db.notifications ++ [statusRow (Order.setStatus env.now found s) s] := by
  simp [afterUpdate, notifyStatus, createNotification, hok, statusRow, statusNotification]

theorem afterUpdate_throw (env : Env) (db : Db) (found : Order) (s e : String)
    (hf : createNotification env.notificationStoreOk
      (statusNotification (Order.setStatus env.now found s) s) db.notifications = .error e) :
    (afterUpdate env db found s).notifications = db.notifications
      ∧ (afterUpdate env db found s).console
          = db.console ++ ["Order status notification error: " ++ e,
              "📢 SMS disabled — No SMS sent."] := by
  simp [afterUpdate, notifyStatus, hf]

theorem createNotification_error {ok : Bool} {a : NotificationArgs} {rows : List Notification}
    {e : String} (h : createNotification ok a rows = .error e) : ok = false := by
  cases ok
  · rfl
  · simp [createNotification] at h

/-- C5, as stated, fails: the notification store rejects the write, the
shopkeeper `s1` confirms the own order `o1`, the answer is 200 and the
notification store is as empty as before. -/
theorem updateOrderStatus_success_without_notification :
    sampleDb.notifications = []
      ∧ (updateOrderStatus failingEnv sampleDb ⟨some "s1", "o1", .str "Confirmed"⟩).2.status
          = 200
      ∧ (updateOrderStatus failingEnv sampleDb
          ⟨some "s1", "o1", .str "Confirmed"⟩).1.notifications = [] := by
  decide

/-- C5, amended: every successful `updateOrderStatus` hands one notification to
`createNotification`, addressed to the customer of the order, with the id of the
order and the new status as metadata. When the notification store accepts the
write the store gains exactly that one row; when the call throws it gains
none. -/
theorem updateOrderStatus_success_notification (env : Env) (db db2 : Db)
    (req : StatusRequest) (r : Response) (h : updateOrderStatus env db req = (db2, r))
    (hr : r.status = 200) :
    ∃ order s, r.body = .order "Order updated" order ∧ req.status = .str s
      ∧ order._id = req.id ∧ order.status = s
      ∧ (statusNotification order s).userId = order.user
      ∧ (statusNotification order s).meta = { orderId := req.id, status := s }
      ∧ (env.notificationStoreOk = true →
          db2.notifications
            = db.notifications ++
              [{ user := order.user, title := "Order " ++ s,
                 message := "Your order #" ++ sliceLast6 req.id ++ " was updated to: " ++ s,
                 meta := { orderId := req.id, status := s }, type := "ORDER_UPDATE",
                 read := false }])
      ∧ (env.notificationStoreOk = false → db2.notifications = db.notifications) := by
  obtain ⟨sk, s, found, _, hst, _, hf, hdb, hr2⟩ := updateOrderStatus_success h hr
  obtain ⟨_, hid, _⟩ := findOne_some hf
  have hid2 : (Order.setStatus env.now found s)._id = req.id := by
    rw [setStatus_id, hid]
  subst hr2 hdb
  refine ⟨_, s, rfl, hst, hid2, setStatus_status _ _ _, rfl, ?_, ?_, ?_⟩
  · simp [statusNotification, hid2]
  · intro hok
    rw [afterUpdate_notifications_ok env db found s hok]
    simp [statusRow, hid2, (setStatus_same env.now found s).2.1]
  · intro hno
    simp [afterUpdate, notifyStatus, createNotification, hno]

/-- Witness of `updateOrderStatus_success_notification`: the shopkeeper `s1`
confirms the own order `o1` while the notification store accepts writes. -/
theorem updateOrderStatus_success_notification_witness :
    ∃ order s,
      (updateOrderStatus sampleEnv sampleDb ⟨some "s1", "o1", .str "Confirmed"⟩).2.body
          = .order "Order updated" order
        ∧ JsValue.str "Confirmed" = .str s
        ∧ (updateOrderStatus sampleEnv sampleDb
            ⟨some "s1", "o1", .str "Confirmed"⟩).1.notifications
          = sampleDb.notifications ++
              [{ user := order.user, title := "Order " ++ s,
                 message := "Your order #" ++ sliceLast6 "o1" ++ " was updated to: " ++ s,
                 meta := { orderId := "o1", status := s }, type := "ORDER_UPDATE",
                 read := false }] :=
  have ⟨order, s, hb, hs, _, _, _, _, hn, _⟩ :=
    updateOrderStatus_success_notification sampleEnv sampleDb _
      ⟨some "s1", "o1", .str "Confirmed"⟩ _ rfl (by decide)
  ⟨order, s, hb, hs, hn rfl⟩

/-! ## Requests with a status that is not enumerated -/

/-- C6: for every status value that is not one of the five enumerated
statuses, whatever the order id and the caller, `updateOrderStatus` answers 400
`Invalid status` and leaves the database as it was: no order is modified and no
notification is created. -/
theorem updateOrderStatus_invalid_status (env : Env) (db : Db) (caller id : String)
    (v : JsValue) (hv : ∀ s, s ∈ allowed → v ≠ .str s) :
    updateOrderStatus env db ⟨some caller, id, v⟩ = (db, ⟨400, .message "Invalid status"⟩)
      ∧ (updateOrderStatus env db ⟨some caller, id, v⟩).1.orders = db.orders
      ∧ (updateOrderStatus env db ⟨some caller, id, v⟩).1.notifications
          = db.notifications := by
  have hinc : includes allowed v = false := by
    cases v with
    | str s =>
      cases hc : includes allowed (.str s) with
      | false => rfl
      | true => exact absurd rfl (hv s (includes_str.mp hc))
    | _ => rfl
  rw [updateOrderStatus_invalid env db caller id hinc]
  exact ⟨rfl, rfl, rfl⟩

/-- Witness of `updateOrderStatus_invalid_status`: the owner asks for the
status `Shipped`. -/
theorem updateOrderStatus_invalid_status_witness :
    updateOrderStatus sampleEnv sampleDb ⟨some "s1", "o1", .str "Shipped"⟩
      = (sampleDb, ⟨400, .message "Invalid status"⟩) :=
  (updateOrderStatus_invalid_status sampleEnv sampleDb "s1" "o1" (.str "Shipped")
    (by decide)).1

/-! ## A notification that fails -/

/-- C7: for every stored order and every enumerated status requested by the
order's shopkeeper, when `createNotification` throws the answer is still the
200 with the updated order, the stored status is the requested one, no
notification row is added, and the exception is written to the console. -/
theorem updateOrderStatus_notification_failure (env : Env) (db : Db) (o : Order)
    (s e : String) (hu : db.UniqueIds) (ho : o ∈ db.orders) (hs : s ∈ allowed)
    (hf : createNotification env.notificationStoreOk
      (statusNotification (Order.setStatus env.now o s) s) db.notifications = .error e) :
    (updateOrderStatus env db ⟨some o.shopkeeper, o._id, .str s⟩).2
        = ⟨200, .order "Order updated" (Order.setStatus env.now o s)⟩
      ∧ (Order.setStatus env.now o s).status = s
      ∧ (updateOrderStatus env db ⟨some o.shopkeeper, o._id, .str s⟩).1.status? o._id = some s
      ∧ (updateOrderStatus env db ⟨some o.shopkeeper, o._id, .str s⟩).1.notifications
          = db.notifications
      ∧ (updateOrderStatus env db ⟨some o.shopkeeper, o._id, .str s⟩).1.console
          = db.console ++ ["Order status notification error: " ++ e,
              "📢 SMS disabled — No SMS sent."] := by
  rw [updateOrderStatus_found env db hs (findOne_owner hu ho)]
  have ht := afterUpdate_throw env db o s e hf
  refine ⟨rfl, setStatus_status _ _ _, ?_, ht.1, ht.2⟩
  simp [Db.status?, afterUpdate_order env db s ho, setStatus_status]

/-- Witness of `updateOrderStatus_notification_failure`: the notification store
rejects the write while shopkeeper `s1` confirms the own order. -/
theorem updateOrderStatus_notification_failure_witness :
    (updateOrderStatus failingEnv sampleDb ⟨some "s1", "o1", .str "Confirmed"⟩).2
        = ⟨200, .order "Order updated" (Order.setStatus 200 sampleOrder "Confirmed")⟩
      ∧ (updateOrderStatus failingEnv sampleDb
          ⟨some "s1", "o1", .str "Confirmed"⟩).1.console
        = ["Order status notification error: Internal", "📢 SMS disabled — No SMS sent."] :=
  have h := updateOrderStatus_notification_failure failingEnv sampleDb sampleOrder
    "Confirmed" "Internal" sampleDb_unique (by decide) (by decide) rfl
  ⟨h.1, h.2.2.2.2⟩

/-! ## Order of the stages -/

/-- C8, as stated, fails: the order `o1` is Confirmed; its shopkeeper `s1` asks
for Pending, an earlier stage of the chain, the answer is 200 and the stored
status is Pending. -/
theorem updateOrderStatus_confirmed_back_to_pending :
    earlierStage "Pending" "Confirmed" = true
      ∧ (sampleDbIn "Confirmed").status? "o1" = some "Confirmed"
      ∧ (updateOrderStatus sampleEnv (sampleDbIn "Confirmed")
          ⟨some "s1", "o1", .str "Pending"⟩).2.status = 200
      ∧ (updateOrderStatus sampleEnv (sampleDbIn "Confirmed")
          ⟨some "s1", "o1", .str "Pending"⟩).1.status? "o1" = some "Pending" := by
  decide

/-- C8, amended: the stages are not ordered by `updateOrderStatus`. For every
order and every successful `updateOrderStatus`, the new stored status is the
requested status, one of the five enumerated ones, whatever the status the
order had before. -/
theorem updateOrderStatus_success_stores_requested (env : Env) (db db2 : Db)
    (req : StatusRequest) (r : Response) (h : updateOrderStatus env db req = (db2, r))
    (hr : r.status = 200) :
    ∃ s, req.status = .str s ∧ s ∈ allowed ∧ db2.status? req.id = some s := by
  obtain ⟨sk, s, found, _, hst, hs, hf, hdb, _⟩ := updateOrderStatus_success h hr
  obtain ⟨hm, hid, _⟩ := findOne_some hf
  refine ⟨s, hst, hs, ?_⟩
  have hq := afterUpdate_order env db s hm
  rw [hid] at hq
  simp [Db.status?, hdb, hq, setStatus_status]

/-- Witness of `updateOrderStatus_success_stores_requested`: a delivered order
is set to Confirmed by its shopkeeper. -/
theorem updateOrderStatus_success_stores_requested_witness :
    ∃ s, JsValue.str "Confirmed" = .str s ∧ s ∈ allowed
      ∧ (updateOrderStatus sampleEnv (sampleDbIn "Delivered")
          ⟨some "s1", "o1", .str "Confirmed"⟩).1.status? "o1" = some s :=
  updateOrderStatus_success_stores_requested sampleEnv (sampleDbIn "Delivered") _
    ⟨some "s1", "o1", .str "Confirmed"⟩ _ rfl (by decide)

/-! ## What a transition leaves alone -/

theorem forall2_map_of_forall {R : Order → Order → Prop} {f : Order → Order}
    (l : List Order) (h : ∀ a ∈ l, R a (f a)) : List.Forall₂ R l (l.map f) := by
  induction l with
  | nil => exact List.Forall₂.nil
  | cons a rest ih =>
    exact List.Forall₂.cons (h a (List.mem_cons_self a rest))
      (ih (fun b hb => h b (List.mem_cons_of_mem a hb)))

theorem sameButStatus_refl (o : Order) : Order.SameButStatus o o := by
  simp [Order.SameButStatus]

/-- C9: for every successful transition, position by position the order
collection after the call holds the same orders as before, each with the same
id, customer, shopkeeper, line items, total, address and payment fields, and
every order other than the one addressed is equal to what it was; products and
users are untouched. -/
theorem updateOrderStatus_frame (env : Env) (db db2 : Db) (req : StatusRequest)
    (r : Response) (hu : db.UniqueIds) (h : updateOrderStatus env db req = (db2, r))
    (hr : r.status = 200) :
    List.Forall₂ (fun o o2 => Order.SameButStatus o o2 ∧ (o._id ≠ req.id → o2 = o))
        db.orders db2.orders
      ∧ db2.products = db.products ∧ db2.users = db.users := by
  obtain ⟨sk, s, found, _, _, _, hf, hdb, _⟩ := updateOrderStatus_success h hr
  obtain ⟨hm, hid, _⟩ := findOne_some hf
  subst hdb
  refine ⟨?_, ?_, ?_⟩
  · rw [afterUpdate_orders]
    unfold Order.save
    apply forall2_map_of_forall
    intro a ha
    by_cases hid2 : a._id = (Order.setStatus env.now found s)._id
    · have : a = found := by
        apply eq_of_mem_of_id_eq hu ha hm
        rw [hid2, setStatus_id]
      subst this
      rw [if_pos hid2]
      refine ⟨setStatus_same _ _ _, ?_⟩
      intro hne
      exact absurd hid hne
    · rw [if_neg hid2]
      exact ⟨sameButStatus_refl a, fun _ => rfl⟩
  · simp only [afterUpdate, notifyStatus]
    split <;> rfl
  · simp only [afterUpdate, notifyStatus]
    split <;> rfl

/-- Witness of `updateOrderStatus_frame`: shopkeeper `s1` confirms the own
order `o1`. -/
theorem updateOrderStatus_frame_witness :
    List.Forall₂ (fun o o2 => Order.SameButStatus o o2 ∧ (o._id ≠ "o1" → o2 = o))
        sampleDb.orders
        (updateOrderStatus sampleEnv sampleDb ⟨some "s1", "o1", .str "Confirmed"⟩).1.orders :=
  (updateOrderStatus_frame sampleEnv sampleDb _ ⟨some "s1", "o1", .str "Confirmed"⟩ _
    sampleDb_unique rfl (by decide)).1

/-! ## A line item without a product -/

theorem orderItemsLoop_missing (products : List Product) (items : List ItemRequest)
    (acc : List OrderItem)
    (h : ∃ it ∈ items, Product.findById products it.productId = none) :
    ∃ it ∈ items, Product.findById products it.productId = none
      ∧ orderItemsLoop products items acc = .error it.productId := by
  induction items generalizing acc with
  | nil => obtain ⟨it, hit, _⟩ := h; cases hit
  | cons a rest ih =>
    cases hfa : Product.findById products a.productId with
    | none =>
      exact ⟨a, List.mem_cons_self a rest, hfa, by simp [orderItemsLoop, hfa]⟩
    | some product =>
      have hrest : ∃ it ∈ rest, Product.findById products it.productId = none := by
        obtain ⟨it, hit, hnone⟩ := h
        rcases List.mem_cons.mp hit with heq | hmem
        · subst heq; rw [hfa] at hnone; cases hnone
        · exact ⟨it, hmem, hnone⟩
      obtain ⟨it, hit, hnone, hloop⟩ :=
        ih (acc ++ [{ product := product._id, name := product.name, price := product.price,
                      quantity := a.quantity, image := product.images.head? }]) hrest
      exact ⟨it, List.mem_cons_of_mem a hit, hnone, by simp [orderItemsLoop, hfa, hloop]⟩

/-- C10, as stated, fails: the only line item refers to the product `p9`, which
does not exist, and the body carries no `shopkeeperId`; the answer is 400
`Shopkeeper ID is required`, not 404. -/
theorem createOrder_missing_product_without_shopkeeper_400 :
    Product.findById sampleDb.products "p9" = none
      ∧ createOrder sampleEnv sampleDb
          ⟨some "u1", { sampleBody "p9" 20 with shopkeeperId := none }⟩
        = (sampleDb, ⟨400, .message "Shopkeeper ID is required"⟩)
      ∧ (createOrder sampleEnv sampleDb
          ⟨some "u1", { sampleBody "p9" 20 with shopkeeperId := none }⟩).2.status ≠ 404 := by
  decide

/-- C10, amended: whenever a line item refers to a product that does not
exist, wherever in the item list it stands, `createOrder` leaves the database
as it was, so that no order is persisted; and when the request carries a user
identity and a `shopkeeperId`, the answer is 404 `Product not found` naming a
missing product of the list. -/
theorem createOrder_missing_product (env : Env) (db : Db) (req : CreateRequest)
    (items : List ItemRequest) (it : ItemRequest) (hitems : req.body.items = some items)
    (hit : it ∈ items) (hmiss : Product.findById db.products it.productId = none) :
    (createOrder env db req).1 = db
      ∧ (∀ userId, req.user = some userId → truthy req.body.shopkeeperId = true →
          ∃ bad ∈ items, Product.findById db.products bad.productId = none
            ∧ (createOrder env db req).2
                = ⟨404, .message ("Product not found: " ++ bad.productId)⟩) := by
  obtain ⟨bad, hbad, hnone, hloop⟩ :=
    orderItemsLoop_missing db.products items [] ⟨it, hit, hmiss⟩
  have hget : req.body.items.getD [] = items := by rw [hitems]; rfl
  have hno : noItems req.body.items = false := by
    rw [hitems]
    cases items with
    | nil => cases hit
    | cons a rest => rfl
  constructor
  · unfold createOrder
    split
    · rfl
    · split
      · rfl
      · split
        · rfl
        · rw [hget, hloop]
  · intro userId huser hsk
    refine ⟨bad, hbad, hnone, ?_⟩
    simp [createOrder, huser, hno, hsk, hget, hloop]

/-- Witness of `createOrder_missing_product`: the second of two line items
refers to the product `p9`, which does not exist. -/
theorem createOrder_missing_product_witness :
    (createOrder sampleEnv sampleDb
        ⟨some "u1", { sampleBody "p1" 20 with
          items := some [⟨"p1", 2⟩, ⟨"p9", 1⟩] }⟩).1 = sampleDb
      ∧ ∃ bad ∈ [(⟨"p1", 2⟩ : ItemRequest), ⟨"p9", 1⟩],
          Product.findById sampleDb.products bad.productId = none
            ∧ (createOrder sampleEnv sampleDb
                ⟨some "u1", { sampleBody "p1" 20 with
                  items := some [⟨"p1", 2⟩, ⟨"p9", 1⟩] }⟩).2
              = ⟨404, .message ("Product not found: " ++ bad.productId)⟩ :=
  have h := createOrder_missing_product sampleEnv sampleDb
    ⟨some "u1", { sampleBody "p1" 20 with items := some [⟨"p1", 2⟩, ⟨"p9", 1⟩] }⟩
    [⟨"p1", 2⟩, ⟨"p9", 1⟩] ⟨"p9", 1⟩ rfl (by decide) (by decide)
  ⟨h.1, h.2 "u1" rfl (by decide)⟩

/-! ## The array of `getWeeklyStats` -/

/-- In a zone without change of offset, `setDate(getDate() + n)` moves the
instant by `n` days. -/
theorem addDays_fixed (zone : Zone) (hz : zone.transitions = []) (t n : Int) :
    addDays zone t n = t + n * msPerDay := by
  simp only [addDays, Zone.toUtc, Zone.toLocal, Zone.localOffset, Zone.utcOffset, hz,
    List.foldl_nil]
  ring

theorem utcDay_addDays (zone : Zone) (hz : zone.transitions = []) (t n : Int) :
    utcDay (addDays zone t n) = utcDay t + n := by
  rw [addDays_fixed zone hz]
  unfold utcDay
  exact Int.add_mul_ediv_right t n (by decide)

theorem utcDay_weekStart (env : Env) (hz : env.zone.transitions = []) :
    utcDay (weekStart env) = utcDay env.now - 6 := by
  unfold weekStart
  rw [utcDay_addDays env.zone hz]
  rfl

theorem emptyDays_seven (zone : Zone) (hz : zone.transitions = []) (t : Int) :
    emptyDays zone 7 t [] = [utcDay t, utcDay t + 1, utcDay t + 2, utcDay t + 3, utcDay t + 4,
      utcDay t + 5, utcDay t + 6].map (fun d => { date := d, orders := 0, revenue := 0 }) := by
  simp only [emptyDays, List.nil_append, List.cons_append, List.map_cons, List.map_nil,
    utcDay_addDays zone hz]
  simp only [add_assoc]
  rfl

theorem emptyDays_week (env : Env) (hz : env.zone.transitions = []) :
    emptyDays env.zone 7 (weekStart env) []
      = (weekDays env).map (fun d => { date := d, orders := 0, revenue := 0 }) := by
  rw [emptyDays_seven env.zone hz, utcDay_weekStart env hz]
  have e1 : utcDay (env.now : Int) - 6 + 1 = utcDay env.now - 5 := by ring
  have e2 : utcDay (env.now : Int) - 6 + 2 = utcDay env.now - 4 := by ring
  have e3 : utcDay (env.now : Int) - 6 + 3 = utcDay env.now - 3 := by ring
  have e4 : utcDay (env.now : Int) - 6 + 4 = utcDay env.now - 2 := by ring
  have e5 : utcDay (env.now : Int) - 6 + 5 = utcDay env.now - 1 := by ring
  have e6 : utcDay (env.now : Int) - 6 + 6 = utcDay env.now := by ring
  rw [e1, e2, e3, e4, e5, e6]
  rfl

theorem weekDays_nodup (env : Env) : (weekDays env).Nodup := by
  unfold weekDays
  generalize utcDay (env.now : Int) = D
  simp only [List.nodup_cons, List.mem_cons, List.mem_singleton, List.not_mem_nil,
    List.nodup_nil, not_or, or_false, and_true, not_false_eq_true]
  omega

/-- The change `bumpDay` makes to one element. -/
theorem bumpDay_eq_map (days : List DayStats) (d total : Int)
    (hn : (days.map DayStats.date).Nodup) :
    bumpDay days d total
      = days.map (fun x =>
          if x.date = d then { x with orders := x.orders + 1, revenue := x.revenue + total }
          else x) := by
  induction days with
  | nil => rfl
  | cons x rest ih =>
    simp only [List.map_cons, List.nodup_cons] at hn
    by_cases hx : x.date = d
    · simp only [bumpDay, if_pos hx, List.map_cons]
      congr 1
      have hid : rest.map (fun x =>
          if x.date = d then { x with orders := x.orders + 1, revenue := x.revenue + total }
          else x) = rest.map id := by
        apply List.map_congr_left
        intro y hy
        have hne : y.date ≠ d := by
          intro hyd
          exact hn.1 (List.mem_map.mpr ⟨y, hy, by rw [hyd, hx]⟩)
        simp [hne]
      rw [hid, List.map_id]
    · simp only [bumpDay, if_neg hx, List.map_cons]
      rw [ih hn.2]

theorem countOrder_dates (days : List DayStats) (o : Order)
    (hn : (days.map DayStats.date).Nodup) :
    (countOrder days o).map DayStats.date = days.map DayStats.date := by
  unfold countOrder
  rw [bumpDay_eq_map days _ _ hn, List.map_map]
  apply List.map_congr_left
  intro x _
  simp only [Function.comp]
  split <;> rfl

/-- The array after `orders.forEach`: every element has gained the orders that
fall on its date. -/
theorem foldl_countOrder (orders : List Order) (days : List DayStats)
    (hn : (days.map DayStats.date).Nodup) :
    orders.foldl countOrder days
      = days.map (fun x =>
          { date := x.date
            orders := x.orders + (orders.filter (fun o => utcDay o.createdAt == x.date)).length
            revenue := x.revenue
              + totalOf (orders.filter (fun o => utcDay o.createdAt == x.date)) }) := by
  induction orders generalizing days with
  | nil =>
    simp only [List.foldl_nil, List.filter_nil, List.length_nil, totalOf, List.map_nil,
      List.sum_nil, add_zero]
    exact (List.map_id days).symm
  | cons o rest ih =>
    have hn2 : ((countOrder days o).map DayStats.date).Nodup := by
      rw [countOrder_dates days o hn]; exact hn
    rw [List.foldl_cons, ih _ hn2]
    unfold countOrder
    rw [bumpDay_eq_map days _ _ hn, List.map_map]
    apply List.map_congr_left
    intro x _
    simp only [Function.comp]
    by_cases hx : x.date = utcDay (o.createdAt : Int)
    · have hb : (utcDay (o.createdAt : Int) == x.date) = true := by simp [hx]
      simp only [if_pos hx, List.filter_cons, hb, if_true, List.length_cons, totalOf,
        List.map_cons, List.sum_cons]
      congr 1
      · omega
      · ring
    · have hb : (utcDay (o.createdAt : Int) == x.date) = false := by
        simp only [beq_eq_false_iff_ne, ne_eq]
        exact fun h => hx h.symm
      simp only [if_neg hx, List.filter_cons, hb]
      rfl

/-- The answer of `getWeeklyStats` to shopkeeper `sk`: one element for each of
the seven days, with the number and the summed totals of the orders read for
that day. -/
theorem getWeeklyStats_eq (env : Env) (db : Db) (sk : String)
    (hz : env.zone.transitions = []) :
    getWeeklyStats env db ⟨some sk⟩
      = (db, ⟨200, .weekly ((weekDays env).map (fun d =>
          { date := d
            orders := (countedOn env db.orders sk d).length
            revenue := totalOf (countedOn env db.orders sk d) }))⟩) := by
  have hn : ((emptyDays env.zone 7 (weekStart env) []).map DayStats.date).Nodup := by
    rw [emptyDays_week env hz, List.map_map]
    have : (DayStats.date ∘ fun d => ({ date := d, orders := 0, revenue := 0 } : DayStats))
        = id := rfl
    rw [this, List.map_id]
    exact weekDays_nodup env
  simp only [getWeeklyStats]
  rw [foldl_countOrder _ _ hn, emptyDays_week env hz, List.map_map]
  have hf : ((fun x : DayStats =>
        ({ date := x.date
           orders := x.orders + (List.filter (fun o => utcDay (o.createdAt : Int) == x.date)
              (weekOrders db.orders sk (weekStart env))).length
           revenue := x.revenue + totalOf (List.filter
              (fun o => utcDay (o.createdAt : Int) == x.date)
              (weekOrders db.orders sk (weekStart env))) } : DayStats))
      ∘ fun d => ({ date := d, orders := 0, revenue := 0 } : DayStats))
      = fun d => ({ date := d
                    orders := (countedOn env db.orders sk d).length
                    revenue := totalOf (countedOn env db.orders sk d) } : DayStats) := by
    funext d
    simp only [Function.comp, countedOn, Nat.zero_add, zero_add]
  rw [hf]

theorem countedOn_eq_filter_ordersOn (env : Env) (orders : List Order) (sk : String)
    (d : Int) :
    countedOn env orders sk d
      = (ordersOn orders sk d).filter (fun o => decide (weekStart env ≤ (o.createdAt : Int))) := by
  unfold countedOn weekOrders ordersOn
  rw [List.filter_filter, List.filter_filter]
  apply List.filter_congr
  intro o _
  cases (o.shopkeeper == sk) <;> cases (utcDay (o.createdAt : Int) == d)
    <;> cases decide (weekStart env ≤ (o.createdAt : Int)) <;> rfl

/-! ## Exact figures of a day -/

/-- C11, at the failing input: it is noon of day 6 and shop `s1` has the order
`w1`, created at 01:00 of day 0 with total 20. The element of day 0 reports no
order and no revenue, although one order of the shop, of total 20, falls on
that day. -/
theorem getWeeklyStats_first_day_drops_earlier_orders :
    (getWeeklyStats weekEnv weekDb ⟨some "s1"⟩).2
        = ⟨200, .weekly [⟨0, 0, 0⟩, ⟨1, 0, 0⟩, ⟨2, 0, 0⟩, ⟨3, 2, 35⟩, ⟨4, 0, 0⟩, ⟨5, 0, 0⟩,
            ⟨6, 0, 0⟩]⟩
      ∧ (ordersOn weekDb.orders "s1" 0).length = 1
      ∧ totalOf (ordersOn weekDb.orders "s1" 0) = 20 := by
  decide

/-! ## Seven days ending today -/

theorem forall2_compose {P Q R : DayStats → DayStats → Prop}
    (h : ∀ x y z, P x y → Q y z → R x z) {a b c : List DayStats}
    (hab : List.Forall₂ P a b) (hbc : List.Forall₂ Q b c) : List.Forall₂ R a c := by
  induction hab generalizing c with
  | nil => cases hbc; exact List.Forall₂.nil
  | cons hxy _ ih =>
    cases hbc with
    | cons hyz hrest => exact List.Forall₂.cons (h _ _ _ hxy hyz) (ih hrest)

theorem forall2_right {R : DayStats → DayStats → Prop} {S : DayStats → Prop}
    {a b : List DayStats} (hab : List.Forall₂ R a b)
    (h : ∀ x ∈ a, ∀ y, R x y → S y) : ∀ y ∈ b, S y := by
  induction hab with
  | nil => intro y hy; cases hy
  | @cons x y0 l1 l2 hxy _ ih =>
    intro y hy
    rcases List.mem_cons.mp hy with rfl | hmem
    · exact h x (List.mem_cons_self x l1) _ hxy
    · exact ih (fun x2 hx2 => h x2 (List.mem_cons_of_mem x hx2)) y hmem

theorem forall2_same_days (R : DayStats → DayStats → Prop) (hr : ∀ x, R x x)
    (l : List DayStats) : List.Forall₂ R l l := by
  induction l with
  | nil => exact List.Forall₂.nil
  | cons x rest ih => exact List.Forall₂.cons (hr x) ih

/-- An update of `bumpDay` keeps every date, and keeps every element whose date
is not the one updated. -/
theorem bumpDay_keeps (days : List DayStats) (d total : Int) :
    List.Forall₂ (fun x y => y.date = x.date ∧ (x.date ≠ d → y = x))
      days (bumpDay days d total) := by
  induction days with
  | nil => exact List.Forall₂.nil
  | cons x rest ih =>
    by_cases hx : x.date = d
    · simp only [bumpDay, if_pos hx]
      exact List.Forall₂.cons ⟨rfl, fun hne => absurd hx hne⟩
        (forall2_same_days _ (fun _ => ⟨rfl, fun _ => rfl⟩) rest)
    · simp only [bumpDay, if_neg hx]
      exact List.Forall₂.cons ⟨rfl, fun _ => rfl⟩ ih

/-- The loop `orders.forEach` keeps every date, and keeps every element on
whose date none of the orders falls. -/
theorem foldl_countOrder_keeps (orders : List Order) (days : List DayStats) :
    List.Forall₂
      (fun x y => y.date = x.date
        ∧ ((∀ o ∈ orders, utcDay (o.createdAt : Int) ≠ x.date) → y = x))
      days (orders.foldl countOrder days) := by
  induction orders generalizing days with
  | nil => exact forall2_same_days _ (fun _ => ⟨rfl, fun _ => rfl⟩) days
  | cons o rest ih =>
    rw [List.foldl_cons]
    refine forall2_compose ?_ (bumpDay_keeps days (utcDay (o.createdAt : Int)) o.total)
      (ih (countOrder days o))
    intro x y z hxy hyz
    refine ⟨hyz.1.trans hxy.1, ?_⟩
    intro hall
    have hne : x.date ≠ utcDay (o.createdAt : Int) :=
      fun h => hall o (List.mem_cons_self o rest) h.symm
    have hyx : y = x := hxy.2 hne
    subst hyx
    exact hyz.2 (fun o2 ho2 => hall o2 (List.mem_cons_of_mem o ho2))

theorem emptyDays_length (zone : Zone) (n : Nat) (t : Int) (acc : List DayStats) :
    (emptyDays zone n t acc).length = acc.length + n := by
  induction n generalizing t acc with
  | zero => simp [emptyDays]
  | succ k ih =>
    simp only [emptyDays]
    rw [ih]
    simp only [List.length_append, List.length_singleton]
    omega

theorem emptyDays_zero (zone : Zone) (n : Nat) (t : Int) (acc : List DayStats)
    (hacc : ∀ x ∈ acc, x.orders = 0 ∧ x.revenue = 0) :
    ∀ x ∈ emptyDays zone n t acc, x.orders = 0 ∧ x.revenue = 0 := by
  induction n generalizing t acc with
  | zero => simpa [emptyDays] using hacc
  | succ k ih =>
    simp only [emptyDays]
    apply ih
    intro x hx
    rcases List.mem_append.mp hx with h | h
    · exact hacc x h
    · simp only [List.mem_singleton] at h
      subst h
      exact ⟨rfl, rfl⟩

/-- C12, as stated, fails. First input: the server is in the zone of New York
(five hours behind UTC, four from 2026-03-08 07:00 UTC on) and it is 2026-03-12
23:30 UTC; the dates of the answer are the days 20519, 20520, 20520, 20521,
20522, 20523, 20524 (2026-03-07, 03-08, 03-08, 03-09, 03-10, 03-11, 03-12): one
date twice, and seven elements for six days. Second input: the server is five
and a half hours ahead of UTC and it is 20:00 UTC of day 10, which is day 11 on
the calendar of the server; the last element is dated day 10. -/
theorem getWeeklyStats_dates_repeat_or_miss_today :
    (getWeeklyStats dstEnv sampleDb ⟨some "s1"⟩).2
        = ⟨200, .weekly [⟨20519, 0, 0⟩, ⟨20520, 0, 0⟩, ⟨20520, 0, 0⟩, ⟨20521, 0, 0⟩,
            ⟨20522, 0, 0⟩, ⟨20523, 0, 0⟩, ⟨20524, 0, 0⟩]⟩
      ∧ ¬ ([20519, 20520, 20520, 20521, 20522, 20523, 20524] : List Int).Nodup
      ∧ localDay (lateEnv.zone.utcOffset lateEnv.now) lateEnv.now = 11
      ∧ (getWeeklyStats lateEnv sampleDb ⟨some "s1"⟩).2
          = ⟨200, .weekly [⟨4, 0, 0⟩, ⟨5, 0, 0⟩, ⟨6, 0, 0⟩, ⟨7, 0, 0⟩, ⟨8, 0, 0⟩, ⟨9, 0, 0⟩,
              ⟨10, 0, 0⟩]⟩ := by
  refine ⟨?_, ?_, ?_, ?_⟩ <;> decide

/-- C12, amended: `getWeeklyStats` always answers with exactly seven elements,
and an element on whose date the shopkeeper has no order carries `orders = 0`
and `revenue = 0`; on a server whose zone keeps one offset from UTC the dates
are seven consecutive calendar days, in ascending order and all different, the
last being the calendar day of now in UTC. -/
theorem getWeeklyStats_seven_days (env : Env) (db : Db) (sk : String) :
    ∃ days, getWeeklyStats env db ⟨some sk⟩ = (db, ⟨200, .weekly days⟩)
      ∧ days.length = 7
      ∧ (∀ x ∈ days, ordersOn db.orders sk x.date = [] → x.orders = 0 ∧ x.revenue = 0)
      ∧ (env.zone.transitions = [] →
          days.map DayStats.date
              = [utcDay env.now - 6, utcDay env.now - 5, utcDay env.now - 4,
                 utcDay env.now - 3, utcDay env.now - 2, utcDay env.now - 1, utcDay env.now]
            ∧ (days.map DayStats.date).Nodup) := by
  have hkeep := foldl_countOrder_keeps (weekOrders db.orders sk (weekStart env))
    (emptyDays env.zone 7 (weekStart env) [])
  refine ⟨_, rfl, ?_, ?_, ?_⟩
  · rw [← hkeep.length_eq, emptyDays_length]
    rfl
  · refine forall2_right hkeep ?_
    intro x hx y hxy hnone
    have hzero := emptyDays_zero env.zone 7 (weekStart env) [] (fun _ h => by cases h) x hx
    have hyx : y = x := by
      apply hxy.2
      intro o ho hday
      have hmem : o ∈ ordersOn db.orders sk y.date := by
        unfold weekOrders at ho
        unfold ordersOn
        have hf := List.mem_filter.mp ho
        refine List.mem_filter.mpr ⟨hf.1, ?_⟩
        have hsk : (o.shopkeeper == sk) = true := by
          have := hf.2
          simp only [Bool.and_eq_true] at this
          exact this.1
        simp only [hsk, Bool.true_and, beq_iff_eq]
        rw [hday, hxy.1]
      rw [hnone] at hmem
      cases hmem
    rw [hyx]
    exact hzero
  · intro hz
    have heq := getWeeklyStats_eq env db sk hz
    simp only [getWeeklyStats] at heq
    have hdays := (Prod.mk.inj heq).2
    simp only [Response.mk.injEq, Body.weekly.injEq, true_and] at hdays
    rw [hdays, List.map_map]
    exact ⟨rfl, weekDays_nodup env⟩

/-- Witness of `getWeeklyStats_seven_days`: the week of `weekDb` seen at noon
of day 6 on a server in UTC. -/
theorem getWeeklyStats_seven_days_witness :
    ∃ days, getWeeklyStats weekEnv weekDb ⟨some "s1"⟩ = (weekDb, ⟨200, .weekly days⟩)
      ∧ days.length = 7
      ∧ days.map DayStats.date = [0, 1, 2, 3, 4, 5, 6] :=
  have ⟨days, h, hl, _, hd⟩ := getWeeklyStats_seven_days weekEnv weekDb "s1"
  ⟨days, h, hl, (hd rfl).1⟩

/-! ## The calendar of the buckets -/

/-- C13, as stated, fails: the server is five and a half hours ahead of UTC,
it is 20:00 UTC of day 10, which is day 11 on the local calendar, and the order
`n1` was created at 19:00 UTC of day 10, also day 11 locally. The last element
is dated day 10, no element is dated day 11, and the order is counted under
day 10. -/
theorem getWeeklyStats_counts_under_utc_day :
    lateEnv.zone = ⟨19800000, []⟩
      ∧ localDay 19800000 lateEnv.now = 11
      ∧ localDay 19800000 932400000 = 11
      ∧ (ordersOn lateDb.orders "s1" 10).map Order.createdAt = [932400000]
      ∧ (getWeeklyStats lateEnv lateDb ⟨some "s1"⟩).2
          = ⟨200, .weekly [⟨4, 0, 0⟩, ⟨5, 0, 0⟩, ⟨6, 0, 0⟩, ⟨7, 0, 0⟩, ⟨8, 0, 0⟩, ⟨9, 0, 0⟩,
              ⟨10, 1, 40⟩]⟩ := by
  refine ⟨?_, ?_, ?_, ?_, ?_⟩ <;> decide

/-- C13, amended: on a server whose zone keeps one offset from UTC,
`getWeeklyStats` buckets by calendar date of UTC. The date of the element at
position `i` is the day of UTC of the instant `i` days after `startDate`; every
element counts the orders read for the shopkeeper whose `createdAt` falls, in
UTC, on its date, and sums their totals; the dates are those of the local
calendar when the zone of the server is UTC. -/
theorem getWeeklyStats_buckets_by_utc_day (env : Env) (db : Db) (sk : String)
    (hz : env.zone.transitions = []) :
    ∃ days, getWeeklyStats env db ⟨some sk⟩ = (db, ⟨200, .weekly days⟩)
      ∧ days.map DayStats.date
          = (List.range 7).map
              (fun (i : Nat) => utcDay (addDays env.zone (weekStart env) (i : Int)))
      ∧ (∀ x ∈ days,
          x.orders = ((weekOrders db.orders sk (weekStart env)).filter
              (fun o => utcDay o.createdAt == x.date)).length
            ∧ x.revenue = totalOf ((weekOrders db.orders sk (weekStart env)).filter
              (fun o => utcDay o.createdAt == x.date)))
      ∧ (env.zone.base = 0 → ∀ t, localDay (env.zone.utcOffset t) t = utcDay t) := by
  refine ⟨_, getWeeklyStats_eq env db sk hz, ?_, ?_, ?_⟩
  · rw [List.map_map]
    have hr : List.range 7 = [0, 1, 2, 3, 4, 5, 6] := by decide
    simp only [hr, List.map_cons, List.map_nil, utcDay_addDays env.zone hz,
      utcDay_weekStart env hz, weekDays, Function.comp]
    have e0 : utcDay (env.now : Int) - 6 + ((0 : Nat) : Int) = utcDay env.now - 6 := by simp
    have e1 : utcDay (env.now : Int) - 6 + ((1 : Nat) : Int) = utcDay env.now - 5 := by
      push_cast; ring
    have e2 : utcDay (env.now : Int) - 6 + ((2 : Nat) : Int) = utcDay env.now - 4 := by
      push_cast; ring
    have e3 : utcDay (env.now : Int) - 6 + ((3 : Nat) : Int) = utcDay env.now - 3 := by
      push_cast; ring
    have e4 : utcDay (env.now : Int) - 6 + ((4 : Nat) : Int) = utcDay env.now - 2 := by
      push_cast; ring
    have e5 : utcDay (env.now : Int) - 6 + ((5 : Nat) : Int) = utcDay env.now - 1 := by
      push_cast; ring
    have e6 : utcDay (env.now : Int) - 6 + ((6 : Nat) : Int) = utcDay env.now := by
      push_cast; ring
    rw [e0, e1, e2, e3, e4, e5, e6]
  · intro x hx
    obtain ⟨d, _, rfl⟩ := List.mem_map.mp hx
    exact ⟨rfl, rfl⟩
  · intro hb t
    simp [localDay, utcDay, Zone.utcOffset, hz, hb]

/-- Witness of `getWeeklyStats_buckets_by_utc_day`: the server five and a half
hours ahead of UTC at 20:00 UTC of day 10. -/
theorem getWeeklyStats_buckets_by_utc_day_witness :
    ∃ days, getWeeklyStats lateEnv lateDb ⟨some "s1"⟩ = (lateDb, ⟨200, .weekly days⟩)
      ∧ days.map DayStats.date
          = (List.range 7).map
              (fun (i : Nat) => utcDay (addDays lateEnv.zone (weekStart lateEnv) (i : Int))) :=
  have ⟨days, h, hd, _, _⟩ := getWeeklyStats_buckets_by_utc_day lateEnv lateDb "s1" rfl
  ⟨days, h, hd⟩

/-! ## Revenue and status -/

theorem foldl_countOrder_status (sk : String) (start : Int) {l1 l2 : List Order}
    (h : List.Forall₂ (fun a b => b = { a with status := b.status }) l1 l2)
    (days : List DayStats) :
    (weekOrders l1 sk start).foldl countOrder days
      = (weekOrders l2 sk start).foldl countOrder days := by
  induction h generalizing days with
  | nil => rfl
  | @cons a b r1 r2 hab _ ih =>
    have hsk : b.shopkeeper = a.shopkeeper := by rw [hab]
    have hca : b.createdAt = a.createdAt := by rw [hab]
    have hto : b.total = a.total := by rw [hab]
    have hco : ∀ ds, countOrder ds b = countOrder ds a := by
      intro ds
      simp only [countOrder, hca, hto]
    simp only [weekOrders, List.filter_cons, hsk, hca]
    split
    · simp only [List.foldl_cons, hco]
      exact ih _
    · exact ih _

/-- C14: for any two order stores that differ only in the status fields of
their orders, `getWeeklyStats` gives the same answer, so the total of an order
is summed whatever its status. -/
theorem getWeeklyStats_status_independent (env : Env) (db1 db2 : Db) (req : AuthRequest)
    (h : List.Forall₂ (fun a b => b = { a with status := b.status }) db1.orders db2.orders) :
    (getWeeklyStats env db1 req).2 = (getWeeklyStats env db2 req).2 := by
  obtain ⟨user⟩ := req
  cases user with
  | none => rfl
  | some sk =>
    simp only [getWeeklyStats]
    have := foldl_countOrder_status sk (weekStart env) h (emptyDays env.zone 7 (weekStart env) [])
    simp only [weekOrders] at this ⊢
    rw [this]

/-- Witness of `getWeeklyStats_status_independent`: the week of `weekDb` and
the same week with every order Delivered. -/
theorem getWeeklyStats_status_independent_witness :
    (getWeeklyStats weekEnv weekDb ⟨some "s1"⟩).2
      = (getWeeklyStats weekEnv weekDbDelivered ⟨some "s1"⟩).2 :=
  getWeeklyStats_status_independent weekEnv weekDb weekDbDelivered ⟨some "s1"⟩
    (@forall2_map_of_forall (fun a b => b = { a with status := b.status })
      (fun o => { o with status := "Delivered" }) weekDb.orders (fun _ _ => rfl))

/-! ## The guards of `createOrder` -/

theorem orderItemsLoop_ok (products : List Product) (items : List ItemRequest)
    (acc : List OrderItem)
    (h : ∀ it ∈ items, Product.findById products it.productId ≠ none) :
    ∃ lis, orderItemsLoop products items acc = .ok (acc ++ lis)
      ∧ List.Forall₂ (fun it li => ∃ p, Product.findById products it.productId = some p
          ∧ li = { product := p._id, name := p.name, price := p.price,
                   quantity := it.quantity, image := p.images.head? }) items lis := by
  induction items generalizing acc with
  | nil => exact ⟨[], by simp [orderItemsLoop], List.Forall₂.nil⟩
  | cons a rest ih =>
    cases hfa : Product.findById products a.productId with
    | none => exact absurd hfa (h a (List.mem_cons_self a rest))
    | some p =>
      obtain ⟨lis, hloop, hrel⟩ :=
        ih (acc ++ [{ product := p._id, name := p.name, price := p.price,
                      quantity := a.quantity, image := p.images.head? }])
          (fun it hit => h it (List.mem_cons_of_mem a hit))
      refine ⟨_ :: lis, ?_, List.Forall₂.cons ⟨p, hfa, rfl⟩ hrel⟩
      simp only [orderItemsLoop, hfa, hloop, List.append_assoc, List.singleton_append]

theorem createOrder_valid (env : Env) (db : Db) (req : CreateRequest) (u : String)
    (hu : req.user = some u) (hn : noItems req.body.items = false)
    (hsk : truthy req.body.shopkeeperId = true)
    (hall : ∀ it ∈ req.body.items.getD [], Product.findById db.products it.productId ≠ none) :
    ∃ lis, createOrder env db req
        = ({ db with orders := db.orders ++ [newOrder env u req.body lis] },
            ⟨201, .order "Order created successfully" (newOrder env u req.body lis)⟩)
      ∧ List.Forall₂ (fun it li => ∃ p, Product.findById db.products it.productId = some p
          ∧ li = { product := p._id, name := p.name, price := p.price,
                   quantity := it.quantity, image := p.images.head? })
          (req.body.items.getD []) lis := by
  obtain ⟨lis, hloop, hrel⟩ := orderItemsLoop_ok db.products (req.body.items.getD []) [] hall
  refine ⟨lis, ?_, hrel⟩
  simp only [List.nil_append] at hloop
  simp [createOrder, hu, hn, hsk, hloop]

/-- C15: `createOrder` answers 401 when the request carries no user identity;
otherwise 400 when `items` is missing or empty, or when `shopkeeperId` is
missing; in each of these cases the answer is the same whatever the product
catalogue holds and the database is left as it was; and when the guards pass
and all items refer to existing products it answers 201 with the order it
appended to the collection. -/
theorem createOrder_guards (env : Env) (db : Db) (req : CreateRequest) :
    (req.user = none → createOrder env db req = (db, ⟨401, .message "Unauthorized"⟩))
      ∧ (∀ u, req.user = some u → noItems req.body.items = true →
          createOrder env db req = (db, ⟨400, .message "Order items are required"⟩))
      ∧ (∀ u, req.user = some u → noItems req.body.items = false →
          truthy req.body.shopkeeperId = false →
          createOrder env db req = (db, ⟨400, .message "Shopkeeper ID is required"⟩))
      ∧ ((req.user = none ∨ noItems req.body.items = true
            ∨ truthy req.body.shopkeeperId = false) →
          (createOrder env db req).1 = db
            ∧ ∀ products, (createOrder env { db with products := products } req).2
                = (createOrder env db req).2)
      ∧ (∀ u, req.user = some u → noItems req.body.items = false →
          truthy req.body.shopkeeperId = true →
          (∀ it ∈ req.body.items.getD [],
            Product.findById db.products it.productId ≠ none) →
          ∃ order, createOrder env db req
            = ({ db with orders := db.orders ++ [order] },
                ⟨201, .order "Order created successfully" order⟩)) := by
  refine ⟨?_, ?_, ?_, ?_, ?_⟩
  · intro hu
    simp [createOrder, hu]
  · intro u hu hn
    simp [createOrder, hu, hn]
  · intro u hu hn hsk
    simp [createOrder, hu, hn, hsk]
  · intro hcase
    cases hu : req.user with
    | none => simp [createOrder, hu]
    | some u =>
      cases hn : noItems req.body.items with
      | true => simp [createOrder, hu, hn]
      | false =>
        cases hsk : truthy req.body.shopkeeperId with
        | false => simp [createOrder, hu, hn, hsk]
        | true =>
          rcases hcase with h | h | h
          · rw [hu] at h; cases h
          · rw [hn] at h; cases h
          · rw [hsk] at h; cases h
  · intro u hu hn hsk hall
    obtain ⟨lis, hc, _⟩ := createOrder_valid env db req u hu hn hsk hall
    exact ⟨_, hc⟩

/-- Witness of `createOrder_guards`: a request without user identity, and the
request of customer `u1` for a product of the catalogue. -/
theorem createOrder_guards_witness :
    createOrder sampleEnv sampleDb ⟨none, sampleBody "p1" 20⟩
        = (sampleDb, ⟨401, .message "Unauthorized"⟩)
      ∧ ∃ order, createOrder sampleEnv sampleDb ⟨some "u1", sampleBody "p1" 20⟩
          = ({ sampleDb with orders := sampleDb.orders ++ [order] },
              ⟨201, .order "Order created successfully" order⟩) :=
  ⟨(createOrder_guards sampleEnv sampleDb ⟨none, sampleBody "p1" 20⟩).1 rfl,
    (createOrder_guards sampleEnv sampleDb ⟨some "u1", sampleBody "p1" 20⟩).2.2.2.2
      "u1" rfl (by decide) (by decide) (by decide)⟩

/-! ## The line items of a created order -/

/-- C16: for every request that passes the guards and whose items all refer to
existing products, `createOrder` answers 201 with an order that has as many
line items as the request has items, in the same order, the k-th holding id,
name, price and first image of the product the k-th item refers to, as the
catalogue has them at that moment, and the quantity of the k-th item. -/
theorem createOrder_line_items (env : Env) (db : Db) (req : CreateRequest) (u : String)
    (items : List ItemRequest) (hu : req.user = some u) (hitems : req.body.items = some items)
    (hne : items ≠ []) (hsk : truthy req.body.shopkeeperId = true)
    (hall : ∀ it ∈ items, Product.findById db.products it.productId ≠ none) :
    ∃ order, createOrder env db req
        = ({ db with orders := db.orders ++ [order] },
            ⟨201, .order "Order created successfully" order⟩)
      ∧ order.items.length = items.length
      ∧ List.Forall₂ (fun it li => ∃ p, Product.findById db.products it.productId = some p
          ∧ li = { product := p._id, name := p.name, price := p.price,
                   quantity := it.quantity, image := p.images.head? })
          items order.items := by
  have hget : req.body.items.getD [] = items := by rw [hitems]; rfl
  have hn : noItems req.body.items = false := by
    rw [hitems]
    cases items with
    | nil => exact absurd rfl hne
    | cons a rest => rfl
  obtain ⟨lis, hc, hrel⟩ := createOrder_valid env db req u hu hn hsk (by rw [hget]; exact hall)
  rw [hget] at hrel
  exact ⟨_, hc, hrel.length_eq.symm, hrel⟩

/-- Witness of `createOrder_line_items`: customer `u1` orders two units of the
product `p1`. -/
theorem createOrder_line_items_witness :
    ∃ order, createOrder sampleEnv sampleDb ⟨some "u1", sampleBody "p1" 20⟩
        = ({ sampleDb with orders := sampleDb.orders ++ [order] },
            ⟨201, .order "Order created successfully" order⟩)
      ∧ order.items.length = 1 :=
  have ⟨order, h, hl, _⟩ := createOrder_line_items sampleEnv sampleDb
    ⟨some "u1", sampleBody "p1" 20⟩ "u1" [⟨"p1", 2⟩] rfl rfl (by decide) (by decide)
    (by decide)
  ⟨order, h, hl⟩

/-! ## The first state of a created order -/

/-- C17: every order created by `createOrder` has status Pending, the id of the
authenticated user as customer and the `shopkeeperId` of the body as
shopkeeper, whatever else the body holds, and the order appended to the
collection is the one returned. -/
theorem createOrder_initial_fields (env : Env) (db db2 : Db) (req : CreateRequest)
    (r : Response) (h : createOrder env db req = (db2, r)) (hr : r.status = 201) :
    ∃ order, r = ⟨201, .order "Order created successfully" order⟩
      ∧ order.status = "Pending"
      ∧ req.user = some order.user
      ∧ req.body.shopkeeperId = some order.shopkeeper
      ∧ db2 = { db with orders := db.orders ++ [order] } := by
  obtain ⟨userId, orderItems, hu, _, hsk, _, hr2, hdb⟩ := createOrder_created h hr
  refine ⟨_, hr2, rfl, hu, ?_, hdb⟩
  cases hs : req.body.shopkeeperId with
  | none => rw [hs] at hsk; cases hsk
  | some sid => simp [newOrder, hs]

/-- Witness of `createOrder_initial_fields`: the request of customer `u1` at
shop `s1`. -/
theorem createOrder_initial_fields_witness :
    ∃ order, (createOrder sampleEnv sampleDb ⟨some "u1", sampleBody "p1" 20⟩).2
        = ⟨201, .order "Order created successfully" order⟩
      ∧ order.status = "Pending"
      ∧ some "u1" = some order.user
      ∧ some "s1" = some order.shopkeeper :=
  have ⟨order, h1, h2, h3, h4, _⟩ := createOrder_initial_fields sampleEnv sampleDb _
    ⟨some "u1", sampleBody "p1" 20⟩ _ rfl (by decide)
  ⟨order, h1, h2, h3, h4⟩

/-! ## What `createOrder` leaves alone -/

/-- C18: for every request, successful or not, `createOrder` creates no
notification and changes no stored order: the notifications, the products and
the users are as before, and the order collection is the former one followed
by at most one new order. -/
theorem createOrder_frame (env : Env) (db : Db) (req : CreateRequest) :
    (createOrder env db req).1.notifications = db.notifications
      ∧ (∃ added, (createOrder env db req).1.orders = db.orders ++ added ∧ added.length ≤ 1)
      ∧ (createOrder env db req).1.products = db.products
      ∧ (createOrder env db req).1.users = db.users
      ∧ (createOrder env db req).1.console = db.console := by
  unfold createOrder
  split
  · exact ⟨rfl, ⟨[], by simp, by simp⟩, rfl, rfl, rfl⟩
  · split
    · exact ⟨rfl, ⟨[], by simp, by simp⟩, rfl, rfl, rfl⟩
    · split
      · exact ⟨rfl, ⟨[], by simp, by simp⟩, rfl, rfl, rfl⟩
      · split
        · exact ⟨rfl, ⟨[], by simp, by simp⟩, rfl, rfl, rfl⟩
        · exact ⟨rfl, ⟨[_], rfl, by simp⟩, rfl, rfl, rfl⟩

/-! ## The text of the notification -/

theorem sliceLast6_suffix (s : String) : (sliceLast6 s).data <:+ s.data :=
  List.drop_suffix _ _

theorem sliceLast6_length (s : String) : (sliceLast6 s).length = min 6 s.length := by
  simp only [sliceLast6, String.length, List.length_drop]
  omega

theorem sliceLast6_short (s : String) (h : s.length ≤ 6) : sliceLast6 s = s := by
  have h0 : s.length - 6 = 0 := by omega
  simp [sliceLast6, h0]

/-- C19: the notification a successful `updateOrderStatus` hands to
`createNotification` has the title `Order ` followed by the new status and the
message `Your order #`, the short id, ` was updated to: ` and the new status,
where the short id is the ending of the order id of six characters, or the
whole id when it has no more than six; when the notification store accepts the
write, the row it gains carries that title and that message. -/
theorem updateOrderStatus_notification_text (env : Env) (db db2 : Db) (req : StatusRequest)
    (r : Response) (h : updateOrderStatus env db req = (db2, r)) (hr : r.status = 200) :
    ∃ order s shortId, req.status = .str s ∧ r.body = .order "Order updated" order
      ∧ shortId.data <:+ req.id.data
      ∧ shortId.length = min 6 req.id.length
      ∧ (req.id.length ≤ 6 → shortId = req.id)
      ∧ (statusNotification order s).title = "Order " ++ s
      ∧ (statusNotification order s).message
          = "Your order #" ++ shortId ++ " was updated to: " ++ s
      ∧ (env.notificationStoreOk = true →
          ∃ row, db2.notifications = db.notifications ++ [row]
            ∧ row.title = "Order " ++ s
            ∧ row.message = "Your order #" ++ shortId ++ " was updated to: " ++ s) := by
  obtain ⟨sk, s, found, _, hst, _, hf, hdb, hr2⟩ := updateOrderStatus_success h hr
  obtain ⟨_, hid, _⟩ := findOne_some hf
  have hid2 : (Order.setStatus env.now found s)._id = req.id := by
    rw [setStatus_id, hid]
  subst hr2 hdb
  refine ⟨_, s, sliceLast6 req.id, hst, rfl, sliceLast6_suffix _, sliceLast6_length _,
    sliceLast6_short _, rfl, ?_, ?_⟩
  · simp [statusNotification, hid2]
  · intro hok
    refine ⟨_, afterUpdate_notifications_ok env db found s hok, rfl, ?_⟩
    simp [statusRow, hid2]

/-- Witness of `updateOrderStatus_notification_text`: shopkeeper `s1` confirms
the own order `o1`. -/
theorem updateOrderStatus_notification_text_witness :
    ∃ order s shortId, JsValue.str "Confirmed" = .str s
      ∧ shortId.length = min 6 "o1".length
      ∧ (statusNotification order s).message
          = "Your order #" ++ shortId ++ " was updated to: " ++ s :=
  have ⟨order, s, shortId, h1, _, _, h4, _, _, h7, _⟩ :=
    updateOrderStatus_notification_text sampleEnv sampleDb _
      ⟨some "s1", "o1", .str "Confirmed"⟩ _ rfl (by decide)
  ⟨order, s, shortId, h1, h4, h7⟩

/-! ## The listings -/

theorem sortNewestFirst_perm (orders : List Order) :
    (sortNewestFirst orders).Perm orders :=
  List.perm_insertionSort _ orders

theorem sortNewestFirst_sorted (orders : List Order) :
    (sortNewestFirst orders).Sorted (fun a b => b.createdAt ≤ a.createdAt) := by
  haveI : IsTotal Order (fun a b => b.createdAt ≤ a.createdAt) :=
    ⟨fun a b => Nat.le_total b.createdAt a.createdAt⟩
  haveI : IsTrans Order (fun a b => b.createdAt ≤ a.createdAt) :=
    ⟨fun _ _ _ hab hbc => Nat.le_trans hbc hab⟩
  exact List.sorted_insertionSort _ orders

/-- C20: `getUserOrders` returns exactly the stored orders whose customer is
the caller and `getShopkeeperOrders` exactly those whose shopkeeper is the
caller: the documents of the answer are a rearrangement of the matching stored
orders, none left out and none repeated, in non-increasing order of
`createdAt`. -/
theorem listings_exact_newest_first (db : Db) (caller : String) :
    (∃ l, getUserOrders db ⟨some caller⟩ = (db, ⟨200, .userOrders l⟩)
        ∧ (l.map UserOrderView.doc).Perm (db.orders.filter (fun o => o.user == caller))
        ∧ (l.map UserOrderView.doc).Sorted (fun a b => b.createdAt ≤ a.createdAt))
      ∧ (∃ l, getShopkeeperOrders db ⟨some caller⟩ = (db, ⟨200, .shopkeeperOrders l⟩)
        ∧ (l.map ShopkeeperOrderView.doc).Perm
            (db.orders.filter (fun o => o.shopkeeper == caller))
        ∧ (l.map ShopkeeperOrderView.doc).Sorted (fun a b => b.createdAt ≤ a.createdAt)) := by
  constructor
  · refine ⟨_, rfl, ?_, ?_⟩
    · rw [List.map_map]
      have : (UserOrderView.doc ∘ fun o : Order =>
          ({ doc := o, shopkeeper := populateUser db.users o.shopkeeper,
             products := o.items.map (populateProduct db.products) } : UserOrderView)) = id := rfl
      rw [this, List.map_id]
      exact sortNewestFirst_perm _
    · rw [List.map_map]
      have : (UserOrderView.doc ∘ fun o : Order =>
          ({ doc := o, shopkeeper := populateUser db.users o.shopkeeper,
             products := o.items.map (populateProduct db.products) } : UserOrderView)) = id := rfl
      rw [this, List.map_id]
      exact sortNewestFirst_sorted _
  · refine ⟨_, rfl, ?_, ?_⟩
    · rw [List.map_map]
      have : (ShopkeeperOrderView.doc ∘ fun o : Order =>
          ({ doc := o, user := populateUser db.users o.user,
             shopkeeper := populateShop db.users o.shopkeeper } : ShopkeeperOrderView))
          = id := rfl
      rw [this, List.map_id]
      exact sortNewestFirst_perm _
    · rw [List.map_map]
      have : (ShopkeeperOrderView.doc ∘ fun o : Order =>
          ({ doc := o, user := populateUser db.users o.user,
             shopkeeper := populateShop db.users o.shopkeeper } : ShopkeeperOrderView))
          = id := rfl
      rw [this, List.map_id]
      exact sortNewestFirst_sorted _

/-- Witness of `listings_exact_newest_first`: the orders of shop `s1` in
`weekDb`, newest first. -/
theorem listings_exact_newest_first_witness :
    ∃ l, getShopkeeperOrders weekDb ⟨some "s1"⟩ = (weekDb, ⟨200, .shopkeeperOrders l⟩)
      ∧ (l.map ShopkeeperOrderView.doc).Perm
          (weekDb.orders.filter (fun o => o.shopkeeper == "s1")) :=
  have ⟨l, h, hp, _⟩ := (listings_exact_newest_first weekDb "s1").2
  ⟨l, h, hp⟩

/-! ## Sequences of transitions -/

theorem save_ids (orders : List Order) (doc : Order) :
    (Order.save orders doc).map Order._id = orders.map Order._id := by
  unfold Order.save
  rw [List.map_map]
  apply List.map_congr_left
  intro a _
  simp only [Function.comp]
  split
  · rename_i h; exact h.symm
  · rfl

theorem save_self {orders : List Order} (hu : (orders.map Order._id).Nodup) {doc : Order}
    (hm : doc ∈ orders) : Order.save orders doc = orders := by
  unfold Order.save
  have h : orders.map (fun o => if o._id = doc._id then doc else o) = orders.map id := by
    apply List.map_congr_left
    intro a ha
    by_cases hid : a._id = doc._id
    · rw [if_pos hid]
      exact (eq_of_mem_of_id_eq hu ha hm hid).symm
    · rw [if_neg hid]
      rfl
  rw [h, List.map_id]

theorem afterUpdate_unique (env : Env) (db : Db) (found : Order) (s : String)
    (hu : db.UniqueIds) : (afterUpdate env db found s).UniqueIds := by
  unfold Db.UniqueIds
  rw [afterUpdate_orders, save_ids]
  exact hu

theorem afterUpdate_mem (env : Env) (db : Db) {found : Order} (s : String)
    (hm : found ∈ db.orders) :
    Order.setStatus env.now found s ∈ (afterUpdate env db found s).orders := by
  have h := afterUpdate_order env db s hm
  unfold Db.order? Order.findById at h
  exact List.mem_of_find?_eq_some h

theorem setStatus_shopkeeper (now : Nat) (o : Order) (s : String) :
    (Order.setStatus now o s).shopkeeper = o.shopkeeper :=
  (setStatus_same now o s).2.2.1

theorem setStatus_user (now : Nat) (o : Order) (s : String) :
    (Order.setStatus now o s).user = o.user :=
  (setStatus_same now o s).2.1

theorem setStatus_total (now : Nat) (o : Order) (s : String) :
    (Order.setStatus now o s).total = o.total :=
  (setStatus_same now o s).2.2.2.2.1

/-- One transition by the owner, for a stored order known by id and owner. -/
theorem updateOrderStatus_step (env : Env) (db : Db) {o : Order} {id sk s : String}
    (hu : db.UniqueIds) (ho : o ∈ db.orders) (hid : o._id = id) (hsk : o.shopkeeper = sk)
    (hs : s ∈ allowed) :
    updateOrderStatus env db ⟨some sk, id, .str s⟩
      = (afterUpdate env db o s,
          ⟨200, .order "Order updated" (Order.setStatus env.now o s)⟩) := by
  subst hid hsk
  exact updateOrderStatus_found env db hs (findOne_owner hu ho)

/-- C21: for a stored order, its shopkeeper and enumerated statuses `s1` and
`s2`, two calls of `updateOrderStatus` in sequence are both answered 200 and
leave the stored status equal to `s2`; when the two statuses are the same, the
second call leaves the order collection, and so the stored order, exactly as
the first call left it. -/
theorem updateOrderStatus_last_write_wins (e1 e2 : Env) (db : Db) (o : Order)
    (s1 s2 : String) (hu : db.UniqueIds) (ho : o ∈ db.orders) (h1 : s1 ∈ allowed)
    (h2 : s2 ∈ allowed) :
    (updateOrderStatus e1 db ⟨some o.shopkeeper, o._id, .str s1⟩).2.status = 200
      ∧ (updateOrderStatus e2 (updateOrderStatus e1 db ⟨some o.shopkeeper, o._id, .str s1⟩).1
          ⟨some o.shopkeeper, o._id, .str s2⟩).2.status = 200
      ∧ (updateOrderStatus e2 (updateOrderStatus e1 db ⟨some o.shopkeeper, o._id, .str s1⟩).1
          ⟨some o.shopkeeper, o._id, .str s2⟩).1.status? o._id = some s2
      ∧ (s1 = s2 →
          (updateOrderStatus e2
              (updateOrderStatus e1 db ⟨some o.shopkeeper, o._id, .str s1⟩).1
              ⟨some o.shopkeeper, o._id, .str s2⟩).1.orders
            = (updateOrderStatus e1 db ⟨some o.shopkeeper, o._id, .str s1⟩).1.orders
          ∧ (updateOrderStatus e2
              (updateOrderStatus e1 db ⟨some o.shopkeeper, o._id, .str s1⟩).1
              ⟨some o.shopkeeper, o._id, .str s2⟩).1.order? o._id
            = (updateOrderStatus e1 db ⟨some o.shopkeeper, o._id, .str s1⟩).1.order? o._id) := by
  rw [updateOrderStatus_step e1 db hu ho rfl rfl h1]
  have hu1 := afterUpdate_unique e1 db o s1 hu
  have hm1 := afterUpdate_mem e1 db s1 ho
  rw [updateOrderStatus_step e2 (afterUpdate e1 db o s1) hu1 hm1 (setStatus_id _ _ _)
    (setStatus_shopkeeper _ _ _) h2]
  have hq := afterUpdate_order e2 (afterUpdate e1 db o s1) s2 hm1
  rw [setStatus_id] at hq
  refine ⟨rfl, rfl, ?_, ?_⟩
  · simp [Db.status?, hq, setStatus_status]
  · intro heq
    subst heq
    have hsame : Order.setStatus e2.now (Order.setStatus e1.now o s1) s1
        = Order.setStatus e1.now o s1 := by
      have hst := setStatus_status e1.now o s1
      generalize Order.setStatus e1.now o s1 = o1 at hst
      simp [Order.setStatus, hst]
    have hord : (afterUpdate e2 (afterUpdate e1 db o s1) (Order.setStatus e1.now o s1) s1).orders
        = (afterUpdate e1 db o s1).orders := by
      rw [afterUpdate_orders e2, hsame]
      exact save_self hu1 hm1
    refine ⟨hord, ?_⟩
    simp only [Db.order?, hord]

/-- Witness of `updateOrderStatus_last_write_wins`: shopkeeper `s1` confirms the
own order `o1` and then delivers it. -/
theorem updateOrderStatus_last_write_wins_witness :
    (updateOrderStatus failingEnv
        (updateOrderStatus sampleEnv sampleDb ⟨some "s1", "o1", .str "Confirmed"⟩).1
        ⟨some "s1", "o1", .str "Delivered"⟩).1.status? "o1" = some "Delivered" :=
  (updateOrderStatus_last_write_wins sampleEnv failingEnv sampleDb sampleOrder "Confirmed"
    "Delivered" sampleDb_unique (by decide) (by decide) (by decide)).2.2.1

/-! ## Reading an order -/

theorem getOrderDetails_status (db : Db) (id : String) :
    ((getOrderDetails db ⟨id⟩).2.status = 404 ∧ Order.findById db.orders id = none)
      ∨ ∃ o, Order.findById db.orders id = some o
          ∧ (getOrderDetails db ⟨id⟩).2
              = ⟨200, .details
                  { doc := o
                    user := populateUser db.users o.user
                    shopkeeper := populateUser db.users o.shopkeeper
                    products := o.items.map (populateProduct db.products) }⟩ := by
  cases h : Order.findById db.orders id with
  | none => left; simp [getOrderDetails, h]
  | some o => right; exact ⟨o, rfl, by simp [getOrderDetails, h]⟩

/-- C22: the route that leads to `getOrderDetails` mounts `protect` alone,
which every authenticated requester passes, whatever the role and identity;
for every stored order `getOrderDetails` answers 200 with that order, without
reading who asks; and it answers 404 exactly when no order has the id. -/
theorem getOrderDetails_no_ownership (db : Db) (id : String) (requester : Requester) :
    (∀ r ∈ orderRoutes, r.handler = .getOrderDetails →
        r.method = .GET ∧ r.path = "/:id" ∧ r.middlewares = [.protect]
          ∧ ∀ m ∈ r.middlewares, m.passes (some requester) = true)
      ∧ (db.UniqueIds → ∀ o ∈ db.orders,
          ∃ p, getOrderDetails db ⟨o._id⟩ = (db, ⟨200, .details p⟩) ∧ p.doc = o)
      ∧ ((getOrderDetails db ⟨id⟩).2.status = 404 ↔ ∀ o ∈ db.orders, o._id ≠ id) := by
  refine ⟨?_, ?_, ?_⟩
  · intro r hr hh
    simp only [orderRoutes, List.mem_cons, List.mem_singleton, List.not_mem_nil,
      or_false] at hr
    rcases hr with rfl | rfl | rfl | rfl | rfl | rfl
    · cases hh
    · cases hh
    · cases hh
    · cases hh
    · refine ⟨rfl, rfl, rfl, ?_⟩
      intro m hm
      simp only [List.mem_singleton] at hm
      subst hm
      rfl
    · cases hh
  · intro hu o ho
    have hf := findById_mem hu ho
    refine ⟨{ doc := o
              user := populateUser db.users o.user
              shopkeeper := populateUser db.users o.shopkeeper
              products := o.items.map (populateProduct db.products) }, ?_, rfl⟩
    simp [getOrderDetails, hf]
  · constructor
    · intro h404 o ho hid
      rcases getOrderDetails_status db id with ⟨_, hnone⟩ | ⟨o2, _, h200⟩
      · unfold Order.findById at hnone
        have := List.find?_eq_none.mp hnone o ho
        simp [hid] at this
      · rw [h200] at h404
        simp at h404
    · intro hall
      rcases getOrderDetails_status db id with ⟨h404, _⟩ | ⟨o2, hsome, _⟩
      · exact h404
      · unfold Order.findById at hsome
        have hm := List.mem_of_find?_eq_some hsome
        have hp := List.find?_some hsome
        simp at hp
        exact absurd hp (hall o2 hm)

/-- Witness of `getOrderDetails_no_ownership`: a customer who is neither the
customer nor the shopkeeper of `o1` reads it. -/
theorem getOrderDetails_no_ownership_witness :
    ∃ p, getOrderDetails sampleDb ⟨sampleOrder._id⟩ = (sampleDb, ⟨200, .details p⟩)
      ∧ p.doc = sampleOrder :=
  (getOrderDetails_no_ownership sampleDb "o1" ⟨"u7", "user"⟩).2.1 sampleDb_unique
    sampleOrder (by decide)

/-! ## The end-to-end scenario -/

theorem afterUpdate_notifications_row (env : Env) (db : Db) (found : Order) (s : String)
    (hok : env.notificationStoreOk = true) :
    ∃ n, (afterUpdate env db found s).notifications = db.notifications ++ [n]
      ∧ n.user = found.user ∧ n.meta.status = s ∧ n.meta.orderId = found._id := by
  refine ⟨_, afterUpdate_notifications_ok env db found s hok, ?_, rfl, ?_⟩
  · simp [statusRow, setStatus_user]
  · simp [statusRow, setStatus_id]

/-- C23: a customer creates an order whose body states the total 500, then the
shopkeeper of the order moves it to Confirmed, to Out for Delivery and to
Delivered while the notification store accepts the writes. `getOrderDetails`
then answers 200 with the order in status Delivered and with total 500, and
the notification store has gained exactly three rows, all addressed to the
customer, with the statuses Confirmed, Out for Delivery, Delivered in that
order. -/
theorem scenario_delivered (e0 e1 e2 e3 : Env) (db : Db) (req : CreateRequest) (u : String)
    (hu : db.UniqueIds) (hfresh : e0.freshId ∉ db.orders.map Order._id)
    (huser : req.user = some u) (hn : noItems req.body.items = false)
    (hsk : truthy req.body.shopkeeperId = true)
    (hall : ∀ it ∈ req.body.items.getD [], Product.findById db.products it.productId ≠ none)
    (htotal : req.body.totalAmount = 500)
    (hok1 : e1.notificationStoreOk = true) (hok2 : e2.notificationStoreOk = true)
    (hok3 : e3.notificationStoreOk = true) :
    ∃ p n1 n2 n3, (scenario e0 e1 e2 e3 db req).2 = ⟨200, .details p⟩
      ∧ p.doc.status = "Delivered" ∧ p.doc.total = 500 ∧ p.doc.user = u
      ∧ (scenario e0 e1 e2 e3 db req).1.notifications = db.notifications ++ [n1, n2, n3]
      ∧ n1.user = u ∧ n2.user = u ∧ n3.user = u
      ∧ n1.meta.status = "Confirmed" ∧ n2.meta.status = "Out for Delivery"
      ∧ n3.meta.status = "Delivered" := by
  obtain ⟨lis, hc, _⟩ := createOrder_valid e0 db req u huser hn hsk hall
  generalize ho0 : newOrder e0 u req.body lis = o0 at hc
  have hid0 : o0._id = e0.freshId := by rw [← ho0]; rfl
  have huser0 : o0.user = u := by rw [← ho0]; rfl
  have htot0 : o0.total = 500 := by rw [← ho0]; exact htotal
  -- the state after the creation
  generalize hdb1 : ({ db with orders := db.orders ++ [o0] } : Db) = db1 at hc
  have hu1 : db1.UniqueIds := by
    rw [← hdb1]
    unfold Db.UniqueIds at hu ⊢
    simp only [List.map_append, List.map_cons, List.map_nil]
    rw [List.nodup_append]
    refine ⟨hu, List.nodup_singleton _, ?_⟩
    intro a ha hb
    simp only [List.mem_singleton] at hb
    subst hb
    rw [hid0] at ha
    exact hfresh ha
  have hm1 : o0 ∈ db1.orders := by rw [← hdb1]; simp
  have hn1 : db1.notifications = db.notifications := by rw [← hdb1]
  -- the three transitions
  have ha1 : "Confirmed" ∈ allowed := by decide
  have ha2 : "Out for Delivery" ∈ allowed := by decide
  have ha3 : "Delivered" ∈ allowed := by decide
  have hs1 := updateOrderStatus_step e1 db1 hu1 hm1 rfl rfl ha1
  generalize ho1 : Order.setStatus e1.now o0 "Confirmed" = o1 at hs1
  have hu2 := afterUpdate_unique e1 db1 o0 "Confirmed" hu1
  have hm2 : o1 ∈ (afterUpdate e1 db1 o0 "Confirmed").orders := by
    rw [← ho1]; exact afterUpdate_mem e1 db1 "Confirmed" hm1
  have hid1 : o1._id = o0._id := by rw [← ho1]; exact setStatus_id _ _ _
  have hsk1 : o1.shopkeeper = o0.shopkeeper := by rw [← ho1]; exact setStatus_shopkeeper _ _ _
  have hs2 := updateOrderStatus_step e2 _ hu2 hm2 hid1 hsk1 ha2
  generalize ho2 : Order.setStatus e2.now o1 "Out for Delivery" = o2 at hs2
  have hu3 := afterUpdate_unique e2 (afterUpdate e1 db1 o0 "Confirmed") o1
    "Out for Delivery" hu2
  have hm3 : o2 ∈ (afterUpdate e2 (afterUpdate e1 db1 o0 "Confirmed") o1
      "Out for Delivery").orders := by
    rw [← ho2]; exact afterUpdate_mem e2 _ "Out for Delivery" hm2
  have hid2 : o2._id = o0._id := by rw [← ho2, setStatus_id, hid1]
  have hsk2 : o2.shopkeeper = o0.shopkeeper := by rw [← ho2, setStatus_shopkeeper, hsk1]
  have hs3 := updateOrderStatus_step e3 _ hu3 hm3 hid2 hsk2 ha3
  have hq := afterUpdate_order e3 _ "Delivered" hm3
  rw [hid2] at hq
  -- the notifications
  obtain ⟨n1, hr1, hnu1, hns1, _⟩ := afterUpdate_notifications_row e1 db1 o0 "Confirmed" hok1
  obtain ⟨n2, hr2, hnu2, hns2, _⟩ :=
    afterUpdate_notifications_row e2 (afterUpdate e1 db1 o0 "Confirmed") o1
      "Out for Delivery" hok2
  obtain ⟨n3, hr3, hnu3, hns3, _⟩ :=
    afterUpdate_notifications_row e3
      (afterUpdate e2 (afterUpdate e1 db1 o0 "Confirmed") o1 "Out for Delivery") o2
      "Delivered" hok3
  have huser1 : o1.user = u := by rw [← ho1, setStatus_user, huser0]
  have huser2 : o2.user = u := by rw [← ho2, setStatus_user, huser1]
  have htot1 : o1.total = 500 := by rw [← ho1, setStatus_total, htot0]
  have htot2 : o2.total = 500 := by rw [← ho2, setStatus_total, htot1]
  have hscen : scenario e0 e1 e2 e3 db req
      = getOrderDetails (afterUpdate e3
          (afterUpdate e2 (afterUpdate e1 db1 o0 "Confirmed") o1 "Out for Delivery") o2
          "Delivered") ⟨o0._id⟩ := by
    simp only [scenario, hc, hs1, hs2, hs3]
  unfold Db.order? at hq
  generalize hdb4 : afterUpdate e3
      (afterUpdate e2 (afterUpdate e1 db1 o0 "Confirmed") o1 "Out for Delivery") o2
      "Delivered" = db4 at hscen hq hr3
  have hdet : getOrderDetails db4 ⟨o0._id⟩
      = (db4, ⟨200, .details
          { doc := Order.setStatus e3.now o2 "Delivered"
            user := populateUser db4.users (Order.setStatus e3.now o2 "Delivered").user
            shopkeeper :=
              populateUser db4.users (Order.setStatus e3.now o2 "Delivered").shopkeeper
            products := (Order.setStatus e3.now o2 "Delivered").items.map
              (populateProduct db4.products) }⟩) := by
    simp only [getOrderDetails, hq]
  rw [hscen, hdet]
  refine ⟨_, n1, n2, n3, rfl, ?_, ?_, ?_, ?_, ?_, ?_, ?_, hns1, hns2, hns3⟩
  · exact setStatus_status _ _ _
  · show (Order.setStatus e3.now o2 "Delivered").total = 500
    rw [setStatus_total, htot2]
  · show (Order.setStatus e3.now o2 "Delivered").user = u
    rw [setStatus_user, huser2]
  · show db4.notifications = _
    rw [hr3, hr2, hr1, hn1]
    simp
  · rw [hnu1, huser0]
  · rw [hnu2, huser1]
  · rw [hnu3, huser2]

/-- Witness of `scenario_delivered`: customer `u1` orders two units of `p5`,
priced 250, at shop `s1`. -/
theorem scenario_delivered_witness :
    ∃ p n1 n2 n3,
      (scenario sampleEnv sampleEnv sampleEnv sampleEnv shopDb ⟨some "u1", scenarioBody⟩).2
          = ⟨200, .details p⟩
        ∧ p.doc.status = "Delivered" ∧ p.doc.total = 500
        ∧ (scenario sampleEnv sampleEnv sampleEnv sampleEnv shopDb
            ⟨some "u1", scenarioBody⟩).1.notifications = shopDb.notifications ++ [n1, n2, n3]
        ∧ n1.meta.status = "Confirmed" ∧ n2.meta.status = "Out for Delivery"
        ∧ n3.meta.status = "Delivered" :=
  have ⟨p, n1, n2, n3, h1, h2, h3, _, h5, _, _, _, h9, h10, h11⟩ :=
    scenario_delivered sampleEnv sampleEnv sampleEnv sampleEnv shopDb
      ⟨some "u1", scenarioBody⟩ "u1" (by simp [Db.UniqueIds, shopDb]) (by decide) rfl
      (by decide) (by decide) (by decide) rfl rfl rfl rfl
  ⟨p, n1, n2, n3, h1, h2, h3, h5, h9, h10, h11⟩

/-! ## A failed transition on the shopkeeper pages -/

/-- C24, at the failing input: the Orders page shows the order `o1` as Pending,
the shopkeeper picks Delivered on its card and the request is answered 404.
The card then holds Delivered and no alert was shown; the failure is written to
the console only. On the order-details page the same failed request leaves
Pending and shows the alert `Failed to update order`. -/
theorem orderCard_failed_update_keeps_new_status :
    putFails (some notFoundResponse) = true
      ∧ sampleOrdersPage.orders.map (fun o => o.doc.status) = ["Pending"]
      ∧ (OrderCard.handleChange sampleOrdersPage sampleView "Delivered"
          (some notFoundResponse)).orders.map (fun o => o.doc.status) = ["Delivered"]
      ∧ (OrderCard.handleChange sampleOrdersPage sampleView "Delivered"
          (some notFoundResponse)).alerts = []
      ∧ (OrderCard.handleChange sampleOrdersPage sampleView "Delivered"
          (some notFoundResponse)).console = ["Status update error:"]
      ∧ (updateStatus sampleDetailsPage "Delivered" (some notFoundResponse)).order.doc.status
          = "Pending"
      ∧ (updateStatus sampleDetailsPage "Delivered" (some notFoundResponse)).alerts
          = ["Failed to update order"] := by
  decide

/-! ## Notifications pushed to the client -/

/-- C25, as stated, fails: the list holds the notification `n1`, loaded by the
backlog fetch, and the same notification is pushed; afterwards the list holds
it twice. -/
theorem onNotification_duplicates :
    ([sampleNotification].filter (fun n => n._id == some "n1")).length = 1
      ∧ onNotification sampleNotification [sampleNotification]
          = [sampleNotification, sampleNotification]
      ∧ ((onNotification sampleNotification [sampleNotification]).filter
          (fun n => n._id == some "n1")).length = 2 := by
  decide

/-- C25, amended: the handler of the event `notification` does not
deduplicate. For every list and every pushed payload the list afterwards is
the payload followed by the former list, one element longer, and the payload
occurs in it once more than it did before: twice when it was present once. -/
theorem onNotification_prepends (payload : ClientNotification)
    (prev : List ClientNotification) :
    onNotification payload prev = payload :: prev
      ∧ (onNotification payload prev).length = prev.length + 1
      ∧ (onNotification payload prev).count payload = prev.count payload + 1
      ∧ ((onNotification payload prev).filter (fun n => n._id == payload._id)).length
          = (prev.filter (fun n => n._id == payload._id)).length + 1 := by
  refine ⟨rfl, rfl, ?_, ?_⟩
  · simp [onNotification]
  · simp [onNotification, List.filter_cons]

/-! ## Marking a notification read -/

/-- C26: for every list and id, the state update of `markNotificationRead`
applied twice gives the same list as applied once; in the updated list every
notification whose `_id` or `id` equals the id is the former one with `isRead`
set, every other notification is the former one, position by position, so that
length and order are kept. -/
theorem markNotificationRead_idempotent (id : Option String)
    (l : List ClientNotification) :
    markNotificationRead id (markNotificationRead id l) = markNotificationRead id l
      ∧ (markNotificationRead id l).length = l.length
      ∧ List.Forall₂ (fun n m =>
            (matchesId id n = true → m = { n with isRead := true })
              ∧ (matchesId id n = false → m = n))
          l (markNotificationRead id l)
      ∧ ∀ m ∈ markNotificationRead id (markNotificationRead id l),
          matchesId id m = true → m.isRead = true := by
  have hidem : markNotificationRead id (markNotificationRead id l)
      = markNotificationRead id l := by
    unfold markNotificationRead
    rw [List.map_map]
    apply List.map_congr_left
    intro n _
    simp only [Function.comp]
    by_cases h : matchesId id n = true
    · have h2 : matchesId id { n with isRead := true } = true := h
      simp only [h, h2, if_true]
    · simp only [h]
      simp only [Bool.false_eq_true, if_false, h]
  refine ⟨hidem, ?_, ?_, ?_⟩
  · simp [markNotificationRead]
  · unfold markNotificationRead
    rw [List.forall₂_map_right_iff, List.forall₂_same]
    intro n _
    by_cases h : matchesId id n = true
    · simp [h]
    · simp [h]
  · rw [hidem]
    intro m hm hmatch
    unfold markNotificationRead at hm
    obtain ⟨n, _, rfl⟩ := List.mem_map.mp hm
    by_cases h : matchesId id n = true
    · simp [h]
    · have h2 : matchesId id n = false := by simpa using h
      simp only [h2, Bool.false_eq_true, if_false] at hmatch

/-! ## First-match routing of the order router -/

/-- C27: under first-match routing over the routes of the order router, the
requests `GET /my`, `GET /my-shop-orders` and `GET /my-shop-orders-weekly` go
to `getUserOrders`, `getShopkeeperOrders` and `getWeeklyStats`; the pattern
`/:id`, which would take each of the three paths as an id, is declared after
them, so that `getOrderDetails` is reached only by other paths. -/
theorem dispatch_dedicated_routes_first :
    dispatch orderRoutes .GET "/my" = some (.getUserOrders, [])
      ∧ dispatch orderRoutes .GET "/my-shop-orders" = some (.getShopkeeperOrders, [])
      ∧ dispatch orderRoutes .GET "/my-shop-orders-weekly" = some (.getWeeklyStats, [])
      ∧ matchPath "/:id" "/my" = some [("id", "my")]
      ∧ matchPath "/:id" "/my-shop-orders" = some [("id", "my-shop-orders")]
      ∧ matchPath "/:id" "/my-shop-orders-weekly" = some [("id", "my-shop-orders-weekly")]
      ∧ orderRoutes.map (fun r => (r.method, r.path))
          = [(.GET, "/my"), (.POST, "/"), (.GET, "/my-shop-orders"),
             (.GET, "/my-shop-orders-weekly"), (.GET, "/:id"), (.PUT, "/:id")]
      ∧ dispatch orderRoutes .GET "/64f1c0ffee" = some (.getOrderDetails, [("id", "64f1c0ffee")])
      := by
  refine ⟨?_, ?_, ?_, ?_, ?_, ?_, ?_, ?_⟩ <;> decide

/-! ## The revenue of today on the dashboard -/

theorem todayRevenue_foldl (zone : Int → Int) (now : Int) (orders : List ShopkeeperOrderView)
    (acc : Int) :
    orders.foldl (fun revenue order =>
        if order.doc.status = "Delivered" then
          if toDateString zone order.doc.updatedAt = toDateString zone now then
            revenue + order.doc.total
          else revenue
        else revenue) acc
      = acc + totalOf ((orders.map ShopkeeperOrderView.doc).filter (fun o =>
          decide (o.status = "Delivered")
            && decide (toDateString zone o.updatedAt = toDateString zone now))) := by
  induction orders generalizing acc with
  | nil => simp [totalOf]
  | cons o rest ih =>
    simp only [List.foldl_cons, List.map_cons, List.filter_cons]
    rw [ih]
    by_cases h1 : o.doc.status = "Delivered"
    · by_cases h2 : toDateString zone o.doc.updatedAt = toDateString zone now
      · simp only [h1, h2, if_true, decide_True, Bool.and_self, totalOf, List.map_cons,
          List.sum_cons]
        ring
      · simp only [h1, h2, if_true, if_false, decide_True, decide_False, Bool.and_false,
          Bool.false_eq_true]
    · simp only [h1, if_false, decide_False, Bool.false_and, Bool.false_eq_true]

/-- C28: the `todayRevenue` of the dashboard is the sum of `total` over exactly
the listed orders whose status is Delivered and whose `updatedAt` falls on the
calendar day of now; it is 0 for an empty list, and an order in another status
or last updated on another day adds nothing. -/
theorem todayRevenue_eq (zone : Int → Int) (now : Int) (orders : List ShopkeeperOrderView) :
    todayRevenue zone now orders
        = totalOf ((orders.map ShopkeeperOrderView.doc).filter (fun o =>
            decide (o.status = "Delivered")
              && decide (toDateString zone o.updatedAt = toDateString zone now)))
      ∧ todayRevenue zone now [] = 0
      ∧ ∀ o : ShopkeeperOrderView,
          (o.doc.status ≠ "Delivered"
            ∨ toDateString zone o.doc.updatedAt ≠ toDateString zone now) →
          todayRevenue zone now (orders ++ [o]) = todayRevenue zone now orders := by
  refine ⟨?_, rfl, ?_⟩
  · unfold todayRevenue
    rw [todayRevenue_foldl]
    simp
  · intro o ho
    unfold todayRevenue
    rw [List.foldl_append]
    simp only [List.foldl_cons, List.foldl_nil]
    rcases ho with h | h
    · simp only [h, if_false]
    · simp only [h, if_false, ite_self]

/-- Witness of `todayRevenue_eq`: of two orders delivered today, totals 30 and
5, and one still pending, the revenue is 35. -/
theorem todayRevenue_eq_witness :
    todayRevenue (fun _ => 19800000) 259300000
        [⟨{ sampleOrder with status := "Delivered", updatedAt := 259200100, total := 30 },
            none, none⟩,
         ⟨{ sampleOrder with status := "Delivered", updatedAt := 259205000, total := 5 },
            none, none⟩,
         ⟨{ sampleOrder with updatedAt := 259205000, total := 7 }, none, none⟩] = 35 :=
  ((todayRevenue_eq (fun _ => 19800000) 259300000 _).1).trans (by decide)

/-! ## The location of the order-details page -/

theorem segments_orderDetailsHref (id : String) :
    segments (orderDetailsHref id)
      = "shopkeeper".data :: "order-details".data :: splitSlash id.data [] := by
  unfold segments orderDetailsHref
  rw [String.data_append]
  rfl

/-- C29, for every order id: the location `/shopkeeper/order-details/<id>`
that `handleViewDetails` sets matches none of the routes declared in `App`,
while the location of the Orders page itself does. -/
theorem orderDetailsHref_matches_no_route (id : String) :
    matchApp appRoutes (orderDetailsHref id) = []
      ∧ matchApp appRoutes "/shopkeeper/orders" = ["Orders"] := by
  constructor
  · unfold matchApp matchPath
    rw [segments_orderDetailsHref]
    generalize splitSlash id.data [] = tail
    rfl
  · decide

/-! ## Delete and undo in the product list -/

/-- C30, at the failing input: the page lists `p1` and `p2` with `total` 2.
After `handleDelete` of `p1` and `handleUndo` before the timer fires, the list
holds the same two products, but `total` is 3: the delete left `total` at 2,
since only the timer lowers it, and the undo raised it by one. -/
theorem handleUndo_after_handleDelete_raises_total :
    sampleProductPage.total = 2
      ∧ (handleDelete sampleProductPage "p1").total = 2
      ∧ (handleDelete sampleProductPage "p1").undoTimeout.isSome = true
      ∧ (handleUndo (handleDelete sampleProductPage "p1")).shopkeeperProducts
          = sampleProductPage.shopkeeperProducts
      ∧ (handleUndo (handleDelete sampleProductPage "p1")).undoTimeout = none
      ∧ (handleUndo (handleDelete sampleProductPage "p1")).total = 3
      ∧ (undoTimeoutFires (handleDelete sampleProductPage "p1") true).total = 1 := by
  refine ⟨?_, ?_, ?_, ?_, ?_, ?_, ?_⟩ <;> decide

end EMart
